import Mathlib

/-!
# Driver daily log front end: coverage computation and session handling

A shallow embedding of `src/components/LogForm.js`, `src/services/api.js` and
`src/utils/auth.js`.

JavaScript numbers are modelled by `JsNumber`: `NaN`, the two infinities, the
integers, and the finite doubles that are no integer.  `Number` and
`parseFloat` read a string to the nearest double.  Arithmetic with a
non-integer operand is rounded to double, ties to even.  Arithmetic on two
integers is kept exact, which it is for doubles as long as the result stays
below `2 ^ 53`; an array of JavaScript holds fewer than `2 ^ 32` entries, so
every sum of minutes of clock times stays far below that.
-/

namespace TransportFrontend

/-! ## JavaScript numbers -/

/-- A JavaScript number.  A finite value that is no integer is kept as the
fraction `m / 2 ^ k` in lowest terms, which every such double is.  The two
zeros are not told apart. -/
inductive JsNumber where
  | nan
  | int (z : Int)
  /-- The value `m / 2 ^ k`, with `m` odd and `0 < k`. -/
  | frac (m : Int) (k : Nat)
  /-- The values `Infinity` and `-Infinity`. -/
  | inf (negative : Bool)
deriving DecidableEq, Repr

/-- Worker of `bitLength`. -/
def bitLengthAux : Nat → Nat → Nat
  | 0, _ => 0
  | fuel + 1, n => if n = 0 then 0 else bitLengthAux fuel (n / 2) + 1

/-- Number of binary digits of `n`. -/
def bitLength (n : Nat) : Nat := bitLengthAux n n

/-- The quotient `n / 2 ^ drop` rounded to the nearest integer, ties to even. -/
def roundHalfEven (n drop : Nat) : Nat :=
  if drop = 0 then n
  else
    let q := n / 2 ^ drop
    let r := n % 2 ^ drop
    let half := 2 ^ (drop - 1)
    if half < r || (r == half && q % 2 == 1) then q + 1 else q

/-- A natural number with a sign. -/
def signed (negative : Bool) (n : Nat) : Int := if negative then -(n : Int) else n

/-- The number `± q / 2 ^ k`, brought to lowest terms. -/
def dyadic (negative : Bool) : Nat → Nat → JsNumber
  | q, 0 => .int (signed negative q)
  | q, k + 1 =>
    if q % 2 = 0 then dyadic negative (q / 2) k else .frac (signed negative q) (k + 1)

/-- The double nearest to `± m / 2 ^ k`, ties to even: 53 significant bits,
no bit below `2 ^ -1074`, and `Infinity` from `2 ^ 1024` on. -/
def roundDyadic (negative : Bool) (m k : Nat) : JsNumber :=
  let drop := max (bitLength m - 53) (k - 1074)
  let q := roundHalfEven m drop
  if 1025 + k ≤ bitLength q + drop then .inf negative
  else if k ≤ drop then .int (signed negative (q * 2 ^ (drop - k)))
  else dyadic negative q (k - drop)

/-- The double nearest to `± n / d`, ties to even.  The quotient is first taken
to 55 bits or more, with one more bit telling whether anything was left. -/
def toDouble (negative : Bool) (n d : Nat) : JsNumber :=
  if n = 0 then .int 0
  else
    let s := bitLength d + 55 - bitLength n
    let q := n * 2 ^ s / d
    let sticky := if n * 2 ^ s % d = 0 then 0 else 1
    roundDyadic negative (2 * q + sticky) (s + 1)

/-- The double nearest to the exact value `m / 2 ^ k`. -/
def ofDyadic (m : Int) (k : Nat) : JsNumber :=
  roundDyadic (decide (m < 0)) m.natAbs k

namespace JsNumber

/-- Whether a number is zero. -/
def isZero : JsNumber → Bool
  | int z => z == 0
  | _ => false

/-- Whether a number is below zero. -/
def isNegative : JsNumber → Bool
  | int z => decide (z < 0)
  | frac m _ => decide (m < 0)
  | inf negative => negative
  | nan => false

/-- JavaScript `-a` on numbers. -/
def neg : JsNumber → JsNumber
  | nan => nan
  | int z => int (-z)
  | frac m k => frac (-m) k
  | inf negative => inf (!negative)

/-- JavaScript `a + b` on numbers.  A sum of two integers is kept exact, as it
is for doubles up to `2 ^ 53`; every other finite sum is rounded to double. -/
def add : JsNumber → JsNumber → JsNumber
  | int a, int b => int (a + b)
  | nan, _ => nan
  | _, nan => nan
  | inf s, inf t => if s = t then inf s else nan
  | inf s, _ => inf s
  | _, inf t => inf t
  | int a, frac n l => ofDyadic (a * 2 ^ l + n) l
  | frac m k, int b => ofDyadic (m + b * 2 ^ k) k
  | frac m k, frac n l => ofDyadic (m * 2 ^ (max k l - k) + n * 2 ^ (max k l - l)) (max k l)

/-- JavaScript `a - b` on numbers.  A difference of two integers is kept
exact; every other finite difference is rounded to double. -/
def sub : JsNumber → JsNumber → JsNumber
  | int a, int b => int (a - b)
  | a, b => a.add b.neg

/-- JavaScript `a * b` on numbers.  A product of two integers is kept exact;
every other finite product is rounded to double. -/
def mul : JsNumber → JsNumber → JsNumber
  | int a, int b => int (a * b)
  | nan, _ => nan
  | _, nan => nan
  | inf s, b => if b.isZero then nan else inf (s != b.isNegative)
  | a, inf t => if a.isZero then nan else inf (a.isNegative != t)
  | int a, frac n l => ofDyadic (a * n) l
  | frac m k, int b => ofDyadic (m * b) k
  | frac m k, frac n l => ofDyadic (m * n) (k + l)

/-- JavaScript `a < b`: false as soon as one side is `NaN`. -/
def lt : JsNumber → JsNumber → Bool
  | int a, int b => decide (a < b)
  | nan, _ => false
  | _, nan => false
  | inf s, inf t => s && !t
  | inf s, _ => s
  | _, inf t => !t
  | int a, frac n l => decide (a * 2 ^ l < n)
  | frac m k, int b => decide (m < b * 2 ^ k)
  | frac m k, frac n l => decide (m * 2 ^ l < n * 2 ^ k)

/-- Whether a number is an integer or `NaN`. -/
def isExact : JsNumber → Bool
  | nan => true
  | int _ => true
  | _ => false

/-- JavaScript `a === b` on numbers: `NaN` is not equal to itself. -/
def strictEq : JsNumber → JsNumber → Bool
  | int a, int b => decide (a = b)
  | frac m k, frac n l => decide (m = n) && decide (k = l)
  | inf s, inf t => s == t
  | _, _ => false

end JsNumber

/-! ## Reading numbers from strings -/

/-- White space and line terminators, which `Number` strips at both ends and
`parseFloat` skips at the start. -/
def isStrWhiteSpace (c : Char) : Bool :=
  let n := c.toNat
  n == 9 || n == 10 || n == 11 || n == 12 || n == 13 || n == 32 || n == 160 || n == 5760 ||
    (decide (8192 ≤ n) && decide (n ≤ 8202)) || n == 8232 || n == 8233 || n == 8239 ||
    n == 8287 || n == 12288 || n == 65279

/-- Value of a digit in a radix up to sixteen. -/
def digitValue (c : Char) : Nat :=
  if c.isDigit then c.toNat - 48
  else if c.isLower then c.toNat - 87
  else c.toNat - 55

/-- Whether `c` is a digit of the given radix. -/
def isRadixDigit (radix : Nat) (c : Char) : Bool :=
  (c.isDigit || (decide (97 ≤ c.toNat) && decide (c.toNat ≤ 102)) ||
    (decide (65 ≤ c.toNat) && decide (c.toNat ≤ 70))) && decide (digitValue c < radix)

/-- The number a string of digits denotes in the given radix. -/
def readDigits (radix : Nat) (digits : List Char) : Nat :=
  digits.foldl (fun acc c => radix * acc + digitValue c) 0

/-- An optional sign at the head of a string, and what follows it. -/
def takeSign : List Char → List Char × List Char
  | '+' :: rest => (['+'], rest)
  | '-' :: rest => (['-'], rest)
  | rest => ([], rest)

/-- The exponent part at the head of a string, if there is a complete one: its
value and what follows it. -/
def takeExponent : List Char → Option (Int × List Char)
  | e :: rest =>
    if e = 'e' || e = 'E' then
      let digits := (takeSign rest).2.takeWhile Char.isDigit
      if digits.isEmpty then none
      else some (signed ((takeSign rest).1 == ['-']) (readDigits 10 digits),
        (takeSign rest).2.dropWhile Char.isDigit)
    else none
  | [] => none

/-- The double nearest to `± digits * 10 ^ exponent`. -/
def decimalValue (negative : Bool) (digits : Nat) (exponent : Int) : JsNumber :=
  match exponent with
  | Int.ofNat e => toDouble negative (digits * 10 ^ e) 1
  | Int.negSucc e => toDouble negative digits (10 ^ (e + 1))

/-- The digits of the fraction at the head of a string: those after a point. -/
def fractionDigits : List Char → List Char
  | '.' :: rest => rest.takeWhile Char.isDigit
  | _ => []

/-- What follows the fraction at the head of a string. -/
def afterFraction : List Char → List Char
  | '.' :: rest => rest.dropWhile Char.isDigit
  | rest => rest

/-- The longest decimal literal at the head of a string (a sign, then
`Infinity` or digits with an optional fraction and exponent): its value and
what follows it. -/
def scanDecimal (s : List Char) : Option (JsNumber × List Char) :=
  let negative := (takeSign s).1 == ['-']
  let rest := (takeSign s).2
  if rest.take 8 = ['I', 'n', 'f', 'i', 'n', 'i', 't', 'y'] then
    some (.inf negative, rest.drop 8)
  else
    let whole := rest.takeWhile Char.isDigit
    let rest1 := rest.dropWhile Char.isDigit
    let fraction := fractionDigits rest1
    let rest3 := afterFraction rest1
    if whole.isEmpty && fraction.isEmpty then none
    else
      let digits := readDigits 10 (whole ++ fraction)
      match takeExponent rest3 with
      | some (exponent, rest4) =>
        some (decimalValue negative digits (exponent - fraction.length), rest4)
      | none => some (decimalValue negative digits (-(fraction.length : Int)), rest3)

/-- The value of a binary, octal or hexadecimal literal (`0b…`, `0o…`, `0x…`),
if the string is one. -/
def nonDecimal : List Char → Option JsNumber
  | '0' :: marker :: digits =>
    let radix :=
      if marker = 'x' || marker = 'X' then 16
      else if marker = 'o' || marker = 'O' then 8
      else if marker = 'b' || marker = 'B' then 2
      else 0
    if radix != 0 && !digits.isEmpty && digits.all (isRadixDigit radix) then
      some (toDouble false (readDigits radix digits) 1)
    else none
  | _ => none

/-- The string without the white space at its two ends. -/
def trim (s : List Char) : List Char :=
  ((s.dropWhile isStrWhiteSpace).reverse.dropWhile isStrWhiteSpace).reverse

/-- JavaScript `Number(s)` on a string: white space is stripped at both ends;
the empty string is `0`; the rest has to be one numeric literal, read to the
nearest double, and anything else is `NaN`. -/
def Number (s : List Char) : JsNumber :=
  let t := trim s
  if t.isEmpty then .int 0
  else
    match nonDecimal t with
    | some value => value
    | none =>
      match scanDecimal t with
      | some (value, []) => value
      | _ => .nan

/-- Worker of `split`: `cur` holds the current piece, reversed. -/
def splitAux (sep : Char) : List Char → List Char → List (List Char)
  | [], cur => [cur.reverse]
  | c :: cs, cur =>
    if c = sep then cur.reverse :: splitAux sep cs [] else splitAux sep cs (c :: cur)

/-- JavaScript `s.split(sep)` for a one-character separator. -/
def split (s : String) (sep : Char) : List (List Char) :=
  splitAux sep s.data []

/-- Array read `a[i]` used in arithmetic: a missing element is `undefined`,
which every arithmetic operator turns into `NaN`. -/
def index (a : List JsNumber) (i : Nat) : JsNumber :=
  a.getD i JsNumber.nan

/-! ## The daily log form (`LogForm.js`) -/

/-- One element of `formData.duty_status_entries`. -/
structure Entry where
  status : String
  start_time : String
  end_time : String
deriving DecidableEq, Repr

/-- The minutes one entry adds in the reducer of `calculateCoverage`
(`endMinutes - startMinutes` after the midnight adjustment). -/
def entryMinutes (entry : Entry) : JsNumber :=
  let start := (split entry.start_time ':').map Number
  let «end» := (split entry.end_time ':').map Number
  let startMinutes := ((index start 0).mul (.int 60)).add (index start 1)
  let endMinutes := ((index «end» 0).mul (.int 60)).add (index «end» 1)
  let endMinutes :=
    if endMinutes.lt startMinutes then endMinutes.add (.int (24 * 60)) else endMinutes
  endMinutes.sub startMinutes

/-- The function `calculateCoverage` of `LogForm.js`: a `reduce` over the entries from `0`. -/
def calculateCoverage (duty_status_entries : List Entry) : JsNumber :=
  duty_status_entries.foldl (fun sum entry => sum.add (entryMinutes entry)) (.int 0)

/-- The flag `isComplete` of `LogForm.js`: `totalMinutes === 1440`. -/
def isComplete (duty_status_entries : List Entry) : Bool :=
  (calculateCoverage duty_status_entries).strictEq (.int 1440)

/-! ### The specification's reading of coverage -/

/-- A time string of the shape `HH:MM`: two digits, a colon, two digits. -/
def isHHMM (t : String) : Bool :=
  match t.data with
  | [a, b, sep, c, d] => a.isDigit && b.isDigit && sep == ':' && c.isDigit && d.isDigit
  | _ => false

/-- Both times of an entry have the shape `HH:MM`. -/
def Entry.wellFormed (e : Entry) : Bool :=
  isHHMM e.start_time && isHHMM e.end_time

/-- Value of the two-digit field starting at position `i` of a time string. -/
def fieldAt (t : String) (i : Nat) : Int :=
  10 * (((t.data.getD i '0').toNat : Int) - 48) + (((t.data.getD (i + 1) '0').toNat : Int) - 48)

/-- Hour field of an `HH:MM` string. -/
def hourOf (t : String) : Int := fieldAt t 0

/-- Minute field of an `HH:MM` string. -/
def minuteOf (t : String) : Int := fieldAt t 3

/-- Elapsed minutes of one entry as the specification words it:
`(endHour*60 + endMinute) - (startHour*60 + startMinute)`, plus 1440 when negative. -/
def elapsedSpec (e : Entry) : Int :=
  let elapsed := (hourOf e.end_time * 60 + minuteOf e.end_time)
    - (hourOf e.start_time * 60 + minuteOf e.start_time)
  if elapsed < 0 then elapsed + 1440 else elapsed

/-- Coverage as the specification words it: the sum of the entries' elapsed minutes. -/
def coverageSpec (es : List Entry) : Int :=
  (es.map elapsedSpec).sum

/-- A time text made of groups of at most two digits between colons, such as
`HH:MM` and `HH:MM:SS`, or the empty text of a cleared time input. -/
def isClockText (t : String) : Bool :=
  (split t ':').all (fun group => group.all Char.isDigit && decide (group.length ≤ 2))

/-- Both times of an entry are clock texts. -/
def Entry.clockTimes (e : Entry) : Bool :=
  isClockText e.start_time && isClockText e.end_time

/-- A valid time of day in `HH:MM` form: hours 0-23, minutes 0-59. -/
def isTimeOfDay (t : String) : Bool :=
  isHHMM t && decide (hourOf t < 24) && decide (minuteOf t < 60)

/-- Both times of an entry are valid times of day. -/
def Entry.validTimes (e : Entry) : Bool :=
  isTimeOfDay e.start_time && isTimeOfDay e.end_time

/-! ## The credential store (`utils/auth.js`) -/

/-- The two `localStorage` keys the program uses; `none` is an absent key,
for which `getItem` returns `null`. -/
structure Storage where
  access_token : Option String
  refresh_token : Option String
deriving DecidableEq, Repr

/-- JavaScript truthiness of what `localStorage.getItem` returns: a non-empty string. -/
def truthy : Option String → Bool
  | some v => v != ""
  | none => false

/-- String conversion of a value that is a string or `undefined`, as done by
`localStorage.setItem` and by a template literal. -/
def toStr : Option String → String
  | some v => v
  | none => "undefined"

def setAuthTokens (ls : Storage) (access refresh : Option String) : Storage :=
  { ls with access_token := some (toStr access), refresh_token := some (toStr refresh) }

def getAccessToken (ls : Storage) : Option String := ls.access_token

def getRefreshToken (ls : Storage) : Option String := ls.refresh_token

def clearAuthTokens (ls : Storage) : Storage :=
  { ls with access_token := none, refresh_token := none }

def isAuthenticated (ls : Storage) : Bool := truthy (getAccessToken ls)

/-! ## The HTTP client (`services/api.js`) -/

/-- Request configuration of the axios instance, with the fields the program touches. -/
structure Config where
  method : String
  url : String
  data : String
  /-- The header `config.headers.Authorization`. -/
  Authorization : Option String
  /-- The flag `config._retry`; absent (`undefined`) reads as `false`. -/
  _retry : Bool
deriving DecidableEq, Repr

/-- A response of the backend with a body of type `β`. -/
structure Response (β : Type) where
  status : Nat
  data : β
deriving DecidableEq, Repr

/-- Outcome of `axios.post(API_BASE_URL + '/auth/refresh/', {refresh})`. -/
inductive RefreshResult (β : Type) where
  /-- The promise rejects: a response with a status outside 2xx, or no response at all. -/
  | rejected (response : Option (Response β))
  /-- A 2xx response whose body is `null`: destructuring it throws a `TypeError`. -/
  | resolvedNull
  /-- A 2xx response; `access` is the body's field of that name, if it has one. -/
  | resolved (access : Option String)
deriving DecidableEq, Repr

/-- What the `catch (refreshError)` block receives. -/
inductive RefreshError (β : Type) where
  /-- The axios error of the exchange, with its `response` if there was one. -/
  | rejected (response : Option (Response β))
  | typeError
deriving DecidableEq, Repr

/-- A network call leaving the browser. -/
inductive Event where
  /-- The `api` instance transmits a request (after the request interceptor). -/
  | send (config : Config)
  /-- The refresh exchange, a `POST` made with the global `axios`, outside the interceptors. -/
  | refresh (refresh : String)
deriving DecidableEq, Repr

/-- The backend: what it answers to a call, given the calls made before it.
`respond` returning `none` is a request that gets no response. -/
structure Server (β : Type) where
  respond : List Event → Config → Option (Response β)
  refresh : List Event → String → RefreshResult β

/-- The error a rejected `api` promise carries. -/
inductive Failure (β : Type) where
  /-- An axios error with `error.config` and `error.response`. -/
  | response (config : Config) (response : Response β)
  /-- An axios error with `error.config` and no `error.response`. -/
  | noResponse (config : Config)
  /-- The error of the refresh exchange, rethrown by the response interceptor. -/
  | refresh (refreshError : RefreshError β)
deriving DecidableEq, Repr

/-- The field `error.response` of a failure, if it has one. -/
def Failure.response? {β : Type} : Failure β → Option (Response β)
  | .response _ r => some r
  | .noResponse _ => none
  | .refresh (.rejected r) => r
  | .refresh .typeError => none

/-- The value `error.response?.status` of a failure. -/
def Failure.status {β : Type} (e : Failure β) : Option Nat :=
  e.response?.map (fun r => r.status)

/-- The browser state the HTTP client reads and writes. -/
structure Client where
  localStorage : Storage
  /-- The last value assigned to `window.location.href`, if any. -/
  location : Option String
  /-- The network calls made so far, oldest first. -/
  trace : List Event
deriving DecidableEq, Repr

/-- The request interceptor: attach the stored access token as a bearer header. -/
def requestInterceptor (ls : Storage) (config : Config) : Config :=
  let token := ls.access_token
  if truthy token then { config with Authorization := some ("Bearer " ++ toStr token) }
  else config

/-- Default `validateStatus` of axios: the promise resolves for 2xx only. -/
def validateStatus (status : Nat) : Bool :=
  decide (200 ≤ status) && decide (status < 300)

/-- One call `api(config)`: the request interceptor, the transmission, then the
response interceptor.  Its rejection handler may call `api` again with the
request flagged `_retry`; the `return api(originalRequest)` is not awaited, so
whatever the second call yields goes to the caller as it is. -/
def api {β : Type} (srv : Server β) (st : Client) (config : Config) :
    Client × Except (Failure β) (Response β) :=
  let sent := requestInterceptor st.localStorage config
  let outcome := srv.respond st.trace sent
  let st1 : Client := { st with trace := st.trace ++ [Event.send sent] }
  match outcome with
  | none => (st1, .error (.noResponse sent))
  | some response =>
    if validateStatus response.status then (st1, .ok response)
    else if h : response.status = 401 ∧ sent._retry = false then
      let originalRequest : Config := { sent with _retry := true }
      let refreshToken := st1.localStorage.refresh_token
      if truthy refreshToken then
        let st2 : Client := { st1 with trace := st1.trace ++ [Event.refresh (toStr refreshToken)] }
        match srv.refresh st1.trace (toStr refreshToken) with
        | .resolved access =>
          let st3 : Client :=
            { st2 with localStorage := { st2.localStorage with access_token := some (toStr access) } }
          api srv st3 { originalRequest with Authorization := some ("Bearer " ++ toStr access) }
        | .resolvedNull =>
          ({ st2 with localStorage := clearAuthTokens st2.localStorage, location := some "/login" },
            .error (.refresh .typeError))
        | .rejected response =>
          ({ st2 with localStorage := clearAuthTokens st2.localStorage, location := some "/login" },
            .error (.refresh (.rejected response)))
      else (st1, .error (.response originalRequest response))
    else (st1, .error (.response sent response))
termination_by (if config._retry then 0 else 1)
decreasing_by
  have h2 : (requestInterceptor st.localStorage config)._retry = false := h.2
  have h3 : config._retry = false := by
    simp only [requestInterceptor] at h2
    split at h2 <;> exact h2
  simp [h3]

/-- A request as `api.get`, `api.post` and `api.put` build it from their
arguments: no `Authorization` header of its own and no `_retry` flag. -/
def request (method url data : String) : Config :=
  { method := method, url := url, data := data, Authorization := none, _retry := false }

/-- The call `authAPI.login`. -/
def authAPI.login {β : Type} (srv : Server β) (st : Client) (username password : String) :
    Client × Except (Failure β) β :=
  let r := api srv st (request "post" "/auth/login/" (username ++ "\n" ++ password))
  (r.1, r.2.map (fun response => response.data))

/-- The call `logsAPI.get`. -/
def logsAPI.get {β : Type} (srv : Server β) (st : Client) (id : String) :
    Client × Except (Failure β) β :=
  let r := api srv st (request "get" ("/logs/" ++ id ++ "/") "")
  (r.1, r.2.map (fun response => response.data))

/-- The call `logsAPI.submit`. -/
def logsAPI.submit {β : Type} (srv : Server β) (st : Client) (id : String) :
    Client × Except (Failure β) β :=
  let r := api srv st (request "post" ("/logs/" ++ id ++ "/submit/") "")
  (r.1, r.2.map (fun response => response.data))

/-- What `api` yields once the response to its one transmission is known and
no retry follows: the response itself for 2xx, the failure otherwise. -/
def settle {β : Type} (sent : Config) : Option (Response β) → Except (Failure β) (Response β)
  | none => .error (.noResponse sent)
  | some response =>
    if validateStatus response.status then .ok response else .error (.response sent response)

/-- The error the `catch (refreshError)` block receives from a failed exchange. -/
def RefreshResult.error? {β : Type} : RefreshResult β → Option (RefreshError β)
  | .rejected response => some (.rejected response)
  | .resolvedNull => some .typeError
  | .resolved _ => none

/-! ## The daily log form: loading and submitting -/

/-- A value as deep as the form reads into a response body, or as it keeps in
its state `error`. -/
inductive Value where
  | str (s : String)
  | arr (items : List String)
  /-- The value `undefined`: no body member holds it, but `setError` can be handed it. -/
  | undefined
deriving DecidableEq, Repr

/-- JavaScript truthiness of a `Value`: every array is truthy, a string when non-empty. -/
def Value.truthy : Value → Bool
  | .str s => s != ""
  | .arr _ => true
  | .undefined => false

/-- A response body as the form's error handling reads it. -/
inductive Body where
  /-- No body (`undefined` or `null`). -/
  | absent
  | text (s : String)
  /-- A JSON object, its members in order, each key once. -/
  | object (fields : List (String × Value))
deriving DecidableEq, Repr

/-- Member access `data?.key`. -/
def Body.field (b : Body) (key : String) : Option Value :=
  match b with
  | .object fields => fields.lookup key
  | _ => none

/-- A daily log as `GET /logs/{id}/` returns it. -/
structure DailyLog where
  id : String
  date : String
  start_location : String
  end_location : String
  carrier_name : String
  vehicle_id : String
  total_miles : String
  remarks : Option String
  duty_status_entries : Option (List Entry)
  is_submitted : Bool
deriving DecidableEq, Repr

/-- The state `formData` of the form. -/
structure FormData where
  date : String
  start_location : String
  end_location : String
  carrier_name : String
  vehicle_id : String
  total_miles : String
  remarks : String
  duty_status_entries : List Entry
deriving DecidableEq, Repr

/-- State of the component `LogForm`. -/
structure LogForm where
  /-- The route parameter `id`; `isEdit` is `!!id`. -/
  id : Option String
  formData : FormData
  loading : Bool
  error : Value
  success : String
  /-- Target of the last `navigate` call, those scheduled with `setTimeout` included. -/
  navigated : Option String
deriving DecidableEq, Repr

def LogForm.isEdit (s : LogForm) : Bool := truthy s.id

/-- The function `fetchLog`. -/
def fetchLog (srv : Server DailyLog) (s : LogForm) (st : Client) : LogForm × Client :=
  match logsAPI.get srv st (toStr s.id) with
  | (st1, .ok log) =>
    ({ s with formData :=
        { date := log.date
          start_location := log.start_location
          end_location := log.end_location
          carrier_name := log.carrier_name
          vehicle_id := log.vehicle_id
          total_miles := log.total_miles
          remarks := if truthy log.remarks then toStr log.remarks else ""
          duty_status_entries := log.duty_status_entries.getD [] } }, st1)
  | (st1, .error err) =>
    if err.status = some 401 then
      ({ s with navigated := some "/login" },
        { st1 with localStorage := clearAuthTokens st1.localStorage })
    else ({ s with error := .str "Failed to load log. Please try again." }, st1)

/-- The value `err.response?.data?.error || 'Failed to submit log.'`. -/
def submitErrorMessage (err : Failure Body) : Value :=
  match err.response?.bind (fun r => r.data.field "error") with
  | some v => if v.truthy then v else .str "Failed to submit log."
  | none => .str "Failed to submit log."

/-- The function `handleSubmitLog`; `confirmed` is the answer given to `window.confirm`. -/
def handleSubmitLog (srv : Server Body) (confirmed : Bool) (s : LogForm) (st : Client) :
    LogForm × Client :=
  if !confirmed then (s, st)
  else
    let s1 : LogForm := { s with loading := true, error := .str "" }
    match logsAPI.submit srv st (toStr s.id) with
    | (st1, .ok _) =>
      ({ s1 with success := "Log submitted successfully!", navigated := some "/logs",
                 loading := false }, st1)
    | (st1, .error err) =>
      ({ s1 with error := submitErrorMessage err, loading := false }, st1)

/-- The attribute `disabled` of the button "Submit Log (Make Permanent)". -/
def submitLogDisabled (s : LogForm) : Bool :=
  s.loading || (isComplete s.formData.duty_status_entries == false)

/-- A click on "Submit Log (Make Permanent)": the button is rendered only when
`isEdit`, and a disabled button does not run its `onClick`. -/
def clickSubmitLog (srv : Server Body) (confirmed : Bool) (s : LogForm) (st : Client) :
    LogForm × Client :=
  if s.isEdit && !submitLogDisabled s then handleSubmitLog srv confirmed s st else (s, st)

/-! ## The daily log form: editing the entries -/

/-- An element of the entries array after an edit: an object created by
`{...entries[index], [field]: value}` has only the members that were set. -/
structure PartialEntry where
  status : Option String
  start_time : Option String
  end_time : Option String
deriving DecidableEq, Repr

/-- The member names the form passes to `handleEntryChange`. -/
inductive EntryField where
  | status
  | start_time
  | end_time
deriving DecidableEq, Repr

/-- A JavaScript array of entries; `none` is a hole (an index below `length`
that holds no element). -/
abbrev EntryArray := List (Option PartialEntry)

/-- An entry with all three members, as an array element. -/
def Entry.toPartial (e : Entry) : PartialEntry :=
  { status := some e.status, start_time := some e.start_time, end_time := some e.end_time }

/-- The copy `[...formData.duty_status_entries]`. -/
def spread (duty_status_entries : List Entry) : EntryArray :=
  duty_status_entries.map (fun e => some e.toPartial)

/-- The object `{...entry, [field]: value}`; spreading `undefined` adds no member. -/
def setField (entry : Option PartialEntry) (field : EntryField) (value : String) : PartialEntry :=
  let base : PartialEntry := entry.getD { status := none, start_time := none, end_time := none }
  match field with
  | .status => { base with status := some value }
  | .start_time => { base with start_time := some value }
  | .end_time => { base with end_time := some value }

/-- The greatest array index of JavaScript, `2 ^ 32 - 2`; an array holds at
most `2 ^ 32 - 1` elements. -/
def maxArrayIndex : Nat := 4294967294

/-- The assignment `entries[index] = element` for an array index: an index at
or beyond `length` extends the array, leaving holes in between. -/
def assignAt (entries : EntryArray) (index : Nat) (element : PartialEntry) : EntryArray :=
  if index < entries.length then entries.set index (some element)
  else entries ++ List.replicate (index - entries.length) none ++ [some element]

/-- The function `handleEntryChange` for an integer `index`: the array it hands
to `setFormData` as `duty_status_entries` (it also resets the error message).
With an `index` that is no array index, below `0` or above `2 ^ 32 - 2`, the
assignment creates a property that is no array element, and `length` stays. -/
def handleEntryChange (duty_status_entries : List Entry) (index : Int) (field : EntryField)
    (value : String) : EntryArray :=
  let entries := spread duty_status_entries
  if index < 0 ∨ (maxArrayIndex : Int) < index then entries
  else assignAt entries index.toNat (setField ((entries.get? index.toNat).join) field value)

/-- The function `addEntry`. -/
def addEntry (formData : FormData) : FormData :=
  { formData with
    duty_status_entries := formData.duty_status_entries ++
      [{ status := "off_duty", start_time := "00:00", end_time := "00:00" }] }

/-- The function `removeEntry`. -/
def removeEntry (formData : FormData) (index : Nat) : FormData :=
  { formData with duty_status_entries := formData.duty_status_entries.eraseIdx index }

/-! ## The daily log form: saving -/

/-- JavaScript `parseFloat(string)`: the value of the longest decimal literal
after leading white space, or `NaN` when there is none. -/
def parseFloat (string : String) : JsNumber :=
  match scanDecimal (string.data.dropWhile isStrWhiteSpace) with
  | some (value, _) => value
  | none => .nan

/-- The object `submitData` built by `handleSubmit`. -/
structure SubmitData where
  date : String
  start_location : String
  end_location : String
  carrier_name : String
  vehicle_id : String
  total_miles : JsNumber
  remarks : String
  duty_status_entries : List Entry
deriving DecidableEq, Repr

/-- The object `submitData`: the form data with `total_miles` run through `parseFloat`
and every entry reduced to its three members. -/
def toSubmitData (formData : FormData) : SubmitData :=
  { date := formData.date
    start_location := formData.start_location
    end_location := formData.end_location
    carrier_name := formData.carrier_name
    vehicle_id := formData.vehicle_id
    total_miles := parseFloat formData.total_miles
    remarks := formData.remarks
    duty_status_entries := formData.duty_status_entries.map
      (fun entry => { status := entry.status, start_time := entry.start_time,
                      end_time := entry.end_time }) }

/-- The escape `JSON.stringify` writes for a character inside a string, or the
character itself when it needs none. -/
def escapeChar (c : Char) : List Char :=
  let n := c.toNat
  if n = 34 then [Char.ofNat 92, Char.ofNat 34]
  else if n = 92 then [Char.ofNat 92, Char.ofNat 92]
  else if n = 8 then [Char.ofNat 92, 'b']
  else if n = 12 then [Char.ofNat 92, 'f']
  else if n = 10 then [Char.ofNat 92, 'n']
  else if n = 13 then [Char.ofNat 92, 'r']
  else if n = 9 then [Char.ofNat 92, 't']
  else if n < 32 then [Char.ofNat 92, 'u', '0', '0', Nat.digitChar (n / 16), Nat.digitChar (n % 16)]
  else [c]

/-- JSON text of a string: between double quotes, with the escapes of `JSON.stringify`. -/
def quote (s : String) : String :=
  String.mk (Char.ofNat 34 :: (s.data.flatMap escapeChar) ++ [Char.ofNat 34])

/-- Worker of `decimalExponent` for a value below one: the least `j` from the
given one on with `q ≤ p * 10 ^ j`. -/
def findScale (p q : Nat) : Nat → Nat → Nat
  | 0, j => j
  | fuel + 1, j => if q ≤ p * 10 ^ j then j else findScale p q fuel (j + 1)

/-- The decimal exponent `n` of a positive value `p / q`, for which
`10 ^ (n - 1) ≤ p / q < 10 ^ n`. -/
def decimalExponent (p q : Nat) : Int :=
  if q ≤ p then ((Nat.toDigits 10 (p / q)).length : Int)
  else 1 - (findScale p q 400 1 : Int)

/-- The shortest digits that read back as the double `v = p / q`, as
`Number::toString` asks: the least number `k` of digits, from the given one on,
for which some `s` of `k` digits has `s * 10 ^ (n - k)` read as `v`; of two such
`s` the closer to `v`, and of two equally close the even one.  The result is
`s` with its `k`. -/
def shortestDigits (v : JsNumber) (p q : Nat) (n : Int) : Nat → Nat → Nat × Nat
  | 0, k => (0, k)
  | fuel + 1, k =>
    let e : Int := n - k
    let num := p * 10 ^ (-e).toNat
    let den := q * 10 ^ e.toNat
    let lo := num / den
    let r := num % den
    let okLo := decide (decimalValue false lo e = v)
    let okHi := decide (decimalValue false (lo + 1) e = v)
    if okLo && okHi then
      if 2 * r < den || (2 * r == den && lo % 2 == 0) then (lo, k) else (lo + 1, k)
    else if okLo then (lo, k)
    else if okHi then (lo + 1, k)
    else shortestDigits v p q n fuel (k + 1)

/-- A string of digits without the zeros at its end. -/
def dropTrailingZeros (digits : List Char) : List Char :=
  (digits.reverse.dropWhile (fun c => c == '0')).reverse

/-- The text `Number::toString` gives a positive double `v = p / q`. -/
def positiveToString (v : JsNumber) (p q : Nat) : String :=
  let found := shortestDigits v p q (decimalExponent p q) 17 1
  let all := Nat.toDigits 10 found.1
  let digits := dropTrailingZeros all
  let n : Int := decimalExponent p q - found.2 + all.length
  let k : Int := digits.length
  String.mk <|
    if k ≤ n ∧ n ≤ 21 then digits ++ List.replicate (n - k).toNat '0'
    else if 0 < n ∧ n ≤ 21 then digits.take n.toNat ++ '.' :: digits.drop n.toNat
    else if -6 < n ∧ n ≤ 0 then '0' :: '.' :: List.replicate (-n).toNat '0' ++ digits
    else
      let exponent := (if n - 1 < 0 then '-' else '+') :: Nat.toDigits 10 (n - 1).natAbs
      if k = 1 then digits ++ 'e' :: exponent
      else digits.take 1 ++ '.' :: digits.drop 1 ++ 'e' :: exponent

/-- JSON text of a number, as `JSON.stringify` writes it: `null` for `NaN` and
the infinities, the text of `Number::toString` for a finite value. -/
def JsNumber.stringify : JsNumber → String
  | .nan => "null"
  | .inf _ => "null"
  | .int z =>
    match toDouble false z.natAbs 1 with
    | .int w =>
      if w = 0 then "0"
      else (if z < 0 then "-" else "") ++ positiveToString (.int w) w.natAbs 1
    | _ => "null"
  | .frac m k =>
    (if m < 0 then "-" else "") ++ positiveToString (.frac m.natAbs k) m.natAbs (2 ^ k)

/-- JSON text of one entry of the request body. -/
def Entry.stringify (e : Entry) : String :=
  "\x7b\"status\":" ++ quote e.status ++ ",\"start_time\":" ++ quote e.start_time ++
    ",\"end_time\":" ++ quote e.end_time ++ "\x7d"

/-- JSON text of the request body, the members in the order `submitData` has them. -/
def SubmitData.stringify (d : SubmitData) : String :=
  "\x7b\"date\":" ++ quote d.date ++ ",\"start_location\":" ++ quote d.start_location ++
    ",\"end_location\":" ++ quote d.end_location ++ ",\"carrier_name\":" ++ quote d.carrier_name ++
    ",\"vehicle_id\":" ++ quote d.vehicle_id ++ ",\"total_miles\":" ++ d.total_miles.stringify ++
    ",\"remarks\":" ++ quote d.remarks ++ ",\"duty_status_entries\":[" ++
    ",".intercalate (d.duty_status_entries.map Entry.stringify) ++ "]\x7d"

/-- The call `logsAPI.create`. -/
def logsAPI.create {β : Type} (srv : Server β) (st : Client) (logData : SubmitData) :
    Client × Except (Failure β) β :=
  let r := api srv st (request "post" "/logs/" logData.stringify)
  (r.1, r.2.map (fun response => response.data))

/-- The call `logsAPI.update`. -/
def logsAPI.update {β : Type} (srv : Server β) (st : Client) (id : String)
    (logData : SubmitData) : Client × Except (Failure β) β :=
  let r := api srv st (request "put" ("/logs/" ++ id ++ "/") logData.stringify)
  (r.1, r.2.map (fun response => response.data))

/-- String conversion of a `Value`, as a template literal does it. -/
def Value.toStr : Value → String
  | .str s => s
  | .arr items => ",".intercalate items
  | .undefined => "undefined"

/-- The element read `v[0]` on a value that is not `undefined`, and `v?.[0]` on
any: the first item of an array, the first character of a string. -/
def Value.first : Value → Value
  | .arr [] => .undefined
  | .arr (m :: _) => .str m
  | .str s =>
    match s.data with
    | [] => .undefined
    | c :: _ => .str (String.singleton c)
  | .undefined => .undefined

/-- The message `handleSubmit` hands to `setError` when the failure is not a 401. -/
def saveErrorMessage (err : Failure Body) : Value :=
  match (err.response?.map (fun r => r.data) : Option Body) with
  | none => .str "Failed to save log. Please try again."
  | some Body.absent => .str "Failed to save log. Please try again."
  | some (Body.text errorData) =>
    if errorData != "" then .str errorData else .str "Failed to save log. Please try again."
  | some (Body.object fields) =>
    let entriesError := (fields.lookup "duty_status_entries").getD .undefined
    if entriesError.truthy then
      match entriesError with
      | .arr items => (Value.arr items).first
      | other => other
    else
      let first := ((fields.head?.map Prod.snd).getD .undefined).first
      if first.truthy then first else .str "Failed to save log."

/-- A string without the `-` at its head, if it has one. -/
def stripMinus : List Char → List Char
  | '-' :: rest => rest
  | rest => rest

/-- A valid floating-point number of HTML: an optional `-`, then digits, or a
point and digits, or both, then an optional exponent. -/
def isValidFloatingPointNumber (t : String) : Bool :=
  let rest := stripMinus t.data
  let whole := rest.takeWhile Char.isDigit
  let rest1 := rest.dropWhile Char.isDigit
  let mantissa :=
    match rest1 with
    | '.' :: _ => !(fractionDigits rest1).isEmpty
    | _ => !whole.isEmpty
  let exponent :=
    match afterFraction rest1 with
    | [] => true
    | rest3 =>
      match takeExponent rest3 with
      | some (_, []) => true
      | _ => false
  mantissa && exponent

/-- The value of the control `<input type="number" id="total_miles">` when the
form holds the text `total_miles` for it: a number control keeps only a valid
floating-point number and otherwise has the empty value. -/
def totalMilesControl (total_miles : String) : String :=
  if isValidFloatingPointNumber total_miles then total_miles else ""

/-- Whether the browser finds the form valid when it is submitted.  The
controls `total_miles`, `start_location`, `end_location`, `carrier_name` and
`vehicle_id` are `required` and fail with an empty value; `othersValid` is the
browser's verdict on the constraints left: the `date` control, and `min` and
`step` of `total_miles`. -/
def formValid (s : LogForm) (othersValid : Bool) : Bool :=
  totalMilesControl s.formData.total_miles != "" && s.formData.start_location != "" &&
    s.formData.end_location != "" && s.formData.carrier_name != "" &&
    s.formData.vehicle_id != "" && othersValid

/-- Where the timer set after a successful create navigates to: the callback
reads `newLog.id`, which throws when `newLog` is `undefined` or `null`. -/
def createdLogRoute (newLog : Body) : Option String :=
  match newLog with
  | .absent => none
  | .text _ => some "/logs/undefined"
  | .object fields => some ("/logs/" ++ ((fields.lookup "id").getD .undefined).toStr)

/-- The function `handleSubmit`. -/
def handleSubmit (srv : Server Body) (s : LogForm) (st : Client) : LogForm × Client :=
  let s1 : LogForm := { s with error := .str "", success := "", loading := true }
  let submitData := toSubmitData s.formData
  let sent :=
    if s.isEdit then logsAPI.update srv st (toStr s.id) submitData
    else logsAPI.create srv st submitData
  match sent with
  | (st1, .ok newLog) =>
    if s.isEdit then ({ s1 with success := "Log updated successfully!", loading := false }, st1)
    else
      ({ s1 with success := "Log created successfully!",
                 navigated := (createdLogRoute newLog).orElse (fun _ => s1.navigated),
                 loading := false }, st1)
  | (st1, .error err) =>
    if err.status = some 401 then
      ({ s1 with navigated := some "/login", loading := false },
        { st1 with localStorage := clearAuthTokens st1.localStorage })
    else ({ s1 with error := saveErrorMessage err, loading := false }, st1)

/-- The request `handleSubmit` builds: an update when editing, a create otherwise. -/
def saveRequest (s : LogForm) : Config :=
  if s.isEdit then request "put" ("/logs/" ++ toStr s.id ++ "/") (toSubmitData s.formData).stringify
  else request "post" "/logs/" (toSubmitData s.formData).stringify

/-- A submission of the rendered form, by its button "Create Log" / "Update Log"
(`type="submit"`, `disabled={loading}`) or by the Enter key: the browser first
validates the controls, and `onSubmit` runs `handleSubmit` only when they are
valid. -/
def submitForm (srv : Server Body) (othersValid : Bool) (s : LogForm) (st : Client) :
    LogForm × Client :=
  if !s.loading && formValid s othersValid then handleSubmit srv s st else (s, st)

/-! ## Sample backends and browser states -/

/-- A backend that answers 401 to every request and exchanges any refresh token for `"fresh"`. -/
def srvExpired : Server Unit :=
  { respond := fun _ _ => some ⟨401, ()⟩, refresh := fun _ _ => .resolved (some "fresh") }

/-- A backend that answers 401 to every request and turns every refresh exchange down with 400. -/
def srvRevoked : Server Unit :=
  { respond := fun _ _ => some ⟨401, ()⟩, refresh := fun _ _ => .rejected (some ⟨400, ()⟩) }

/-- A browser holding both tokens. -/
def signedIn : Client :=
  { localStorage := ⟨some "stale", some "r1"⟩, location := none, trace := [] }

/-- A browser holding an access token and no refresh token. -/
def accessOnly : Client :=
  { localStorage := ⟨some "stale", none⟩, location := none, trace := [] }

/-- A backend that accepts every request with an empty 200 response. -/
def srvAccept : Server Body :=
  { respond := fun _ _ => some ⟨200, .absent⟩, refresh := fun _ _ => .rejected none }

/-- A backend that turns every request down with status 400 and an `error` message. -/
def srvReject : Server Body :=
  { respond := fun _ _ => some ⟨400, .object [("error", .str "Log is already submitted.")]⟩,
    refresh := fun _ _ => .rejected none }

/-- The form as first rendered on the route `/logs/{id}`, before `fetchLog` has run. -/
def blankForm (id : Option String) (today : String) : LogForm :=
  { id := id
    formData :=
      { date := today, start_location := "", end_location := "", carrier_name := "",
        vehicle_id := "", total_miles := "", remarks := "", duty_status_entries := [] }
    loading := false, error := .str "", success := "", navigated := none }

/-- A log the backend holds as submitted, covering the whole day. -/
def submittedLog : DailyLog :=
  { id := "7", date := "2024-05-01", start_location := "Reno", end_location := "Elko",
    carrier_name := "Acme", vehicle_id := "T-12", total_miles := "289.00", remarks := none,
    duty_status_entries := some [⟨"off_duty", "00:00", "12:00"⟩, ⟨"driving", "12:00", "00:00"⟩],
    is_submitted := true }

/-- A backend that answers every request with `submittedLog`. -/
def srvLog : Server DailyLog :=
  { respond := fun _ _ => some ⟨200, submittedLog⟩, refresh := fun _ _ => .rejected none }

/-- A backend that turns every request down with status 400 and the given body. -/
def srvInvalid (body : Body) : Server Body :=
  { respond := fun _ _ => some ⟨400, body⟩, refresh := fun _ _ => .rejected none }

/-- A backend that answers every request with status 401 and the given body. -/
def srvUnauthorized (body : Body) : Server Body :=
  { respond := fun _ _ => some ⟨401, body⟩, refresh := fun _ _ => .rejected none }

/-- A new log being typed in, with the given text in the field `total_miles`. -/
def newLogForm (total_miles : String) : LogForm :=
  { blankForm none "2024-05-02" with
    formData := { (blankForm none "2024-05-02").formData with total_miles := total_miles } }

/-! ## Coverage: lemmas -/

theorem isDigit_ne_colon {c : Char} (h : c.isDigit = true) : c ≠ ':' := by
  intro hc
  subst hc
  exact absurd h (by decide)

theorem isHHMM_data {t : String} (h : isHHMM t = true) :
    ∃ a b c d, t.data = [a, b, ':', c, d] ∧ a.isDigit = true ∧ b.isDigit = true ∧
      c.isDigit = true ∧ d.isDigit = true := by
  unfold isHHMM at h
  split at h
  · rename_i a b sep c d heq
    simp only [Bool.and_eq_true, beq_iff_eq] at h
    obtain ⟨⟨⟨⟨ha, hb⟩, hsep⟩, hc⟩, hd⟩ := h
    exact ⟨a, b, c, d, by rw [heq, hsep], ha, hb, hc, hd⟩
  · exact absurd h (by simp)

theorem isDigit_bounds {c : Char} (h : c.isDigit = true) : 48 ≤ c.toNat ∧ c.toNat ≤ 57 := by
  simp only [Char.isDigit, Bool.and_eq_true, decide_eq_true_eq] at h
  obtain ⟨h1, h2⟩ := h
  have h1' : (48 : UInt32).toNat ≤ c.val.toNat := h1
  have h2' : c.val.toNat ≤ (57 : UInt32).toNat := h2
  exact ⟨h1', h2'⟩

/-- A digit is one of the ten digit characters. -/
theorem isDigit_cases {c : Char} (h : c.isDigit = true) :
    c = '0' ∨ c = '1' ∨ c = '2' ∨ c = '3' ∨ c = '4' ∨ c = '5' ∨ c = '6' ∨ c = '7' ∨
      c = '8' ∨ c = '9' := by
  obtain ⟨h1, h2⟩ := isDigit_bounds h
  have hc : c = Char.ofNat c.toNat := (Char.ofNat_toNat c).symm
  generalize c.toNat = n at h1 h2 hc
  subst hc
  interval_cases n <;> decide

theorem Number_two {a b : Char} (ha : a.isDigit = true) (hb : b.isDigit = true) :
    Number [a, b] = .int (10 * ((a.toNat : Int) - 48) + ((b.toNat : Int) - 48)) := by
  rcases isDigit_cases ha with rfl | rfl | rfl | rfl | rfl | rfl | rfl | rfl | rfl | rfl <;>
    rcases isDigit_cases hb with rfl | rfl | rfl | rfl | rfl | rfl | rfl | rfl | rfl | rfl <;>
    rfl

/-- On an `HH:MM` string, `split(':').map(Number)` is the pair of its hour and minute fields. -/
theorem split_map_Number {t : String} (h : isHHMM t = true) :
    (split t ':').map Number = [.int (hourOf t), .int (minuteOf t)] := by
  obtain ⟨a, b, c, d, hdata, ha, hb, hc, hd⟩ := isHHMM_data h
  have na := isDigit_ne_colon ha
  have nb := isDigit_ne_colon hb
  have nc := isDigit_ne_colon hc
  have nd := isDigit_ne_colon hd
  simp [split, splitAux, hdata, na, nb, nc, nd, Number_two, ha, hb, hc, hd, hourOf, minuteOf,
    fieldAt]

/-- On a well-formed entry the reducer adds the specification's elapsed minutes. -/
theorem entryMinutes_eq {e : Entry} (h : e.wellFormed = true) :
    entryMinutes e = .int (elapsedSpec e) := by
  simp only [Entry.wellFormed, Bool.and_eq_true] at h
  obtain ⟨hs, he⟩ := h
  simp only [entryMinutes, split_map_Number hs, split_map_Number he, index, List.getD_cons_zero,
    List.getD_cons_succ, JsNumber.mul, JsNumber.add, JsNumber.lt, elapsedSpec]
  by_cases hlt : hourOf e.end_time * 60 + minuteOf e.end_time
      < hourOf e.start_time * 60 + minuteOf e.start_time
  · have h2 : hourOf e.end_time * 60 + minuteOf e.end_time
        - (hourOf e.start_time * 60 + minuteOf e.start_time) < 0 := by omega
    simp only [hlt, decide_True, if_true, h2, JsNumber.add, JsNumber.sub]
    congr 1
    omega
  · have h2 : ¬ (hourOf e.end_time * 60 + minuteOf e.end_time
        - (hourOf e.start_time * 60 + minuteOf e.start_time) < 0) := by omega
    simp only [hlt, decide_False, if_false, h2, JsNumber.sub, Bool.false_eq_true]

/-- The reducer of `calculateCoverage` run from any integer accumulator. -/
theorem foldl_coverage (es : List Entry) (h : ∀ e ∈ es, e.wellFormed = true) (acc : Int) :
    es.foldl (fun (sum : JsNumber) entry => sum.add (entryMinutes entry)) (JsNumber.int acc)
      = JsNumber.int (acc + coverageSpec es) := by
  induction es generalizing acc with
  | nil => simp [coverageSpec]
  | cons e es ih =>
    have he := h e (List.mem_cons_self e es)
    have hes : ∀ x ∈ es, x.wellFormed = true := fun x hx => h x (List.mem_cons_of_mem e hx)
    rw [List.foldl_cons, entryMinutes_eq he]
    show List.foldl _ (JsNumber.int (acc + elapsedSpec e)) es = _
    rw [ih hes]
    simp only [coverageSpec, List.map_cons, List.sum_cons, add_assoc]

theorem calculateCoverage_eq (es : List Entry) (h : ∀ e ∈ es, e.wellFormed = true) :
    calculateCoverage es = .int (coverageSpec es) := by
  simpa [calculateCoverage] using foldl_coverage es h 0

theorem coverageSpec_append (a b : List Entry) :
    coverageSpec (a ++ b) = coverageSpec a + coverageSpec b := by
  simp [coverageSpec]

theorem isExact_cases {x : JsNumber} (h : x.isExact = true) : x = .nan ∨ ∃ z, x = .int z := by
  cases x with
  | nan => exact Or.inl rfl
  | int z => exact Or.inr ⟨z, rfl⟩
  | frac m k => exact absurd h (by simp [JsNumber.isExact])
  | inf negative => exact absurd h (by simp [JsNumber.isExact])

/-- A group of at most two digits reads as an integer. -/
theorem Number_group {group : List Char} (hd : group.all Char.isDigit = true)
    (hl : group.length ≤ 2) : (Number group).isExact = true := by
  match group, hd, hl with
  | [], _, _ => rfl
  | [a], hd, _ =>
    have ha : a.isDigit = true := by simpa using hd
    rcases isDigit_cases ha with rfl | rfl | rfl | rfl | rfl | rfl | rfl | rfl | rfl | rfl <;> rfl
  | [a, b], hd, _ =>
    have hab : a.isDigit = true ∧ b.isDigit = true := by simpa using hd
    rw [Number_two hab.1 hab.2]
    rfl
  | _ :: _ :: _ :: _, _, hl => exact absurd hl (by simp)

/-- An element read from an array of integers is an integer or, when missing, `NaN`. -/
theorem index_isExact {a : List JsNumber} (h : ∀ x ∈ a, x.isExact = true) (i : Nat) :
    (index a i).isExact = true := by
  unfold index
  rcases Nat.lt_or_ge i a.length with hi | hi
  · rw [List.getD_eq_getElem _ _ hi]
    exact h _ (List.getElem_mem hi)
  · rw [List.getD_eq_default _ _ hi]
    rfl

theorem split_map_Number_isExact {t : String} (h : isClockText t = true) :
    ∀ x ∈ (split t ':').map Number, x.isExact = true := by
  intro x hx
  obtain ⟨group, hg, rfl⟩ := List.mem_map.mp hx
  have := (List.all_eq_true.mp h) group hg
  simp only [Bool.and_eq_true, decide_eq_true_eq] at this
  exact Number_group this.1 this.2

/-- The minutes computed from four readings that are integers or `NaN` are an
integer or `NaN`. -/
theorem minutes_isExact {a b c d : JsNumber} (ha : a.isExact = true) (hb : b.isExact = true)
    (hc : c.isExact = true) (hd : d.isExact = true) :
    ((if ((c.mul (.int 60)).add d).lt ((a.mul (.int 60)).add b)
        then ((c.mul (.int 60)).add d).add (.int (24 * 60))
        else (c.mul (.int 60)).add d).sub ((a.mul (.int 60)).add b)).isExact = true := by
  rcases isExact_cases ha with rfl | ⟨a, rfl⟩ <;> rcases isExact_cases hb with rfl | ⟨b, rfl⟩ <;>
    rcases isExact_cases hc with rfl | ⟨c, rfl⟩ <;> rcases isExact_cases hd with rfl | ⟨d, rfl⟩ <;>
    simp only [JsNumber.mul, JsNumber.add, JsNumber.lt] <;>
    split <;> simp [JsNumber.sub, JsNumber.add, JsNumber.neg, JsNumber.isExact]

/-- An entry whose times are clock texts adds an integer or `NaN`. -/
theorem entryMinutes_isExact {e : Entry} (h : e.clockTimes = true) :
    (entryMinutes e).isExact = true := by
  simp only [Entry.clockTimes, Bool.and_eq_true] at h
  exact minutes_isExact
    (index_isExact (split_map_Number_isExact h.1) 0)
    (index_isExact (split_map_Number_isExact h.1) 1)
    (index_isExact (split_map_Number_isExact h.2) 0)
    (index_isExact (split_map_Number_isExact h.2) 1)

theorem add_isExact {x y : JsNumber} (hx : x.isExact = true) (hy : y.isExact = true) :
    (x.add y).isExact = true := by
  rcases isExact_cases hx with rfl | ⟨a, rfl⟩ <;> rcases isExact_cases hy with rfl | ⟨b, rfl⟩ <;>
    rfl

theorem add_assoc_of_isExact {x y z : JsNumber} (hx : x.isExact = true)
    (hy : y.isExact = true) (hz : z.isExact = true) :
    (x.add y).add z = x.add (((JsNumber.int 0).add y).add z) := by
  rcases isExact_cases hx with rfl | ⟨a, rfl⟩ <;> rcases isExact_cases hy with rfl | ⟨b, rfl⟩ <;>
    rcases isExact_cases hz with rfl | ⟨c, rfl⟩ <;>
    simp [JsNumber.add, add_assoc]

/-- The reducer of `calculateCoverage`, run over entries that add integers or
`NaN` from such an accumulator, adds their total to the accumulator. -/
theorem foldl_coverage_add (es : List Entry) (h : ∀ e ∈ es, e.clockTimes = true)
    (acc : JsNumber) (hacc : acc.isExact = true) :
    (es.foldl (fun (sum : JsNumber) entry => sum.add (entryMinutes entry)) acc).isExact = true ∧
      es.foldl (fun (sum : JsNumber) entry => sum.add (entryMinutes entry)) acc
        = acc.add (calculateCoverage es) := by
  induction es generalizing acc with
  | nil =>
    refine ⟨hacc, ?_⟩
    rcases isExact_cases hacc with rfl | ⟨a, rfl⟩ <;> simp [calculateCoverage, JsNumber.add]
  | cons e es ih =>
    have he := entryMinutes_isExact (h e (List.mem_cons_self e es))
    have hes : ∀ x ∈ es, x.clockTimes = true := fun x hx => h x (List.mem_cons_of_mem e hx)
    have h1 := ih hes (acc.add (entryMinutes e)) (add_isExact hacc he)
    have h0 := ih hes ((JsNumber.int 0).add (entryMinutes e)) (add_isExact rfl he)
    have hz := ih hes (JsNumber.int 0) rfl
    refine ⟨h1.1, ?_⟩
    rw [List.foldl_cons, h1.2]
    have hc : calculateCoverage (e :: es)
        = ((JsNumber.int 0).add (entryMinutes e)).add (calculateCoverage es) := by
      rw [← h0.2]
      rfl
    rw [hc]
    have hr : (calculateCoverage es).isExact = true := hz.1
    exact add_assoc_of_isExact hacc he hr

/-- Times of the shape `HH:MM` are clock texts. -/
theorem isClockText_of_isHHMM {t : String} (h : isHHMM t = true) : isClockText t = true := by
  obtain ⟨a, b, c, d, hdata, ha, hb, hc, hd⟩ := isHHMM_data h
  have na := isDigit_ne_colon ha
  have nb := isDigit_ne_colon hb
  have nc := isDigit_ne_colon hc
  have nd := isDigit_ne_colon hd
  simp [isClockText, split, splitAux, hdata, na, nb, nc, nd, ha, hb, hc, hd]

/-! ## The HTTP client: lemmas -/

theorem requestInterceptor_retry (ls : Storage) (config : Config) :
    (requestInterceptor ls config)._retry = config._retry := by
  simp only [requestInterceptor]
  split <;> rfl

/-- A request already flagged `_retry` is transmitted once and never retried. -/
theorem api_of_retry {β : Type} (srv : Server β) (st : Client) (config : Config)
    (hretry : config._retry = true) :
    api srv st config =
      ({ st with trace := st.trace ++ [Event.send (requestInterceptor st.localStorage config)] },
        settle (requestInterceptor st.localStorage config)
          (srv.respond st.trace (requestInterceptor st.localStorage config))) := by
  rw [api]
  have h := requestInterceptor_retry st.localStorage config
  rw [hretry] at h
  cases hr : srv.respond st.trace (requestInterceptor st.localStorage config) with
  | none => simp [settle]
  | some response =>
    by_cases hv : validateStatus response.status = true
    · simp [settle, hv]
    · simp [settle, hv, h]

theorem validateStatus_401 : validateStatus 401 = false := by decide

/-- First 401 with a stored refresh token and a successful exchange: the new
token is stored and the flagged request goes through `api` once more. -/
theorem api_of_refresh_resolved {β : Type} (srv : Server β) (st : Client) (config : Config)
    (r1 : Response β) (access : Option String)
    (hretry : config._retry = false)
    (hresp : srv.respond st.trace (requestInterceptor st.localStorage config) = some r1)
    (h401 : r1.status = 401)
    (htok : truthy st.localStorage.refresh_token = true)
    (href : srv.refresh (st.trace ++ [Event.send (requestInterceptor st.localStorage config)])
      (toStr st.localStorage.refresh_token) = .resolved access) :
    api srv st config =
      api srv
        { st with
          localStorage := { st.localStorage with access_token := some (toStr access) },
          trace := st.trace ++ [Event.send (requestInterceptor st.localStorage config)]
            ++ [Event.refresh (toStr st.localStorage.refresh_token)] }
        { requestInterceptor st.localStorage config with
          _retry := true, Authorization := some ("Bearer " ++ toStr access) } := by
  rw [api]
  have h := requestInterceptor_retry st.localStorage config
  rw [hretry] at h
  simp only [hresp, h401, validateStatus_401, h, htok, href]
  simp

/-- First 401 with no usable refresh token: the failure goes to the caller and
nothing is stored or cleared. -/
theorem api_of_no_refresh_token {β : Type} (srv : Server β) (st : Client) (config : Config)
    (r1 : Response β)
    (hretry : config._retry = false)
    (hresp : srv.respond st.trace (requestInterceptor st.localStorage config) = some r1)
    (h401 : r1.status = 401)
    (htok : truthy st.localStorage.refresh_token = false) :
    api srv st config =
      ({ st with trace := st.trace ++ [Event.send (requestInterceptor st.localStorage config)] },
        .error (.response { requestInterceptor st.localStorage config with _retry := true } r1)) := by
  rw [api]
  have h := requestInterceptor_retry st.localStorage config
  rw [hretry] at h
  simp only [hresp, h401, validateStatus_401, h, htok]
  simp

/-- First 401 with a stored refresh token and a failed exchange: both tokens
are removed, the page is sent to `/login`, and the exchange's error is rethrown. -/
theorem api_of_refresh_failed {β : Type} (srv : Server β) (st : Client) (config : Config)
    (r1 : Response β) (e : RefreshError β)
    (hretry : config._retry = false)
    (hresp : srv.respond st.trace (requestInterceptor st.localStorage config) = some r1)
    (h401 : r1.status = 401)
    (htok : truthy st.localStorage.refresh_token = true)
    (href : (srv.refresh (st.trace ++ [Event.send (requestInterceptor st.localStorage config)])
      (toStr st.localStorage.refresh_token)).error? = some e) :
    api srv st config =
      ({ localStorage := clearAuthTokens st.localStorage,
         location := some "/login",
         trace := st.trace ++ [Event.send (requestInterceptor st.localStorage config)]
            ++ [Event.refresh (toStr st.localStorage.refresh_token)] },
        .error (.refresh e)) := by
  rw [api]
  have h := requestInterceptor_retry st.localStorage config
  rw [hretry] at h
  simp only [hresp, h401, validateStatus_401, h, htok]
  cases hx : srv.refresh (st.trace ++ [Event.send (requestInterceptor st.localStorage config)])
      (toStr st.localStorage.refresh_token) with
  | rejected response =>
    rw [hx] at href
    simp only [RefreshResult.error?, Option.some.injEq] at href
    subst href
    simp
  | resolvedNull =>
    rw [hx] at href
    simp only [RefreshResult.error?, Option.some.injEq] at href
    subst href
    simp
  | resolved access =>
    rw [hx] at href
    simp [RefreshResult.error?] at href

/-- Any failure other than a first 401 is passed on as it is. -/
theorem api_of_other {β : Type} (srv : Server β) (st : Client) (config : Config)
    (h : ∀ r, srv.respond st.trace (requestInterceptor st.localStorage config) = some r →
      r.status ≠ 401) :
    api srv st config =
      ({ st with trace := st.trace ++ [Event.send (requestInterceptor st.localStorage config)] },
        settle (requestInterceptor st.localStorage config)
          (srv.respond st.trace (requestInterceptor st.localStorage config))) := by
  rw [api]
  cases hr : srv.respond st.trace (requestInterceptor st.localStorage config) with
  | none => simp [settle]
  | some response =>
    have hne := h response hr
    by_cases hv : validateStatus response.status = true
    · simp [settle, hv]
    · simp [settle, hv, hne]

theorem strictEq_int_iff (x : JsNumber) (n : Int) :
    x.strictEq (.int n) = true ↔ x = .int n := by
  cases x <;> simp [JsNumber.strictEq]

theorem elapsedSpec_status (status start_time end_time : String) :
    elapsedSpec ⟨status, start_time, end_time⟩ = elapsedSpec ⟨"", start_time, end_time⟩ := rfl

/-! ## Coverage: the claims -/

/-- C1: on entries whose times are well-formed `HH:MM` strings, `calculateCoverage`
returns the sum over the entries of `(endHour*60 + endMinute) - (startHour*60 + startMinute)`
with 1440 added to an entry's value when it is negative; the single entry 23:00-01:00
gives 120 minutes. -/
theorem calculateCoverage_is_sum_of_elapsed (es : List Entry)
    (h : ∀ e ∈ es, e.wellFormed = true) :
    calculateCoverage es = .int (es.map elapsedSpec).sum ∧
      ∀ status, calculateCoverage [⟨status, "23:00", "01:00"⟩] = .int 120 := by
  refine ⟨calculateCoverage_eq es h, fun status => ?_⟩
  have hw : ∀ e ∈ [(⟨status, "23:00", "01:00"⟩ : Entry)], e.wellFormed = true := by
    intro e he
    rw [List.mem_singleton] at he
    subst he
    rfl
  rw [calculateCoverage_eq _ hw, coverageSpec, List.map, List.map, elapsedSpec_status]
  decide

theorem calculateCoverage_is_sum_of_elapsed_witness :
    (∀ e ∈ [(⟨"driving", "23:00", "01:00"⟩ : Entry), ⟨"off_duty", "01:00", "13:30"⟩],
        e.wellFormed = true) ∧
      calculateCoverage [⟨"driving", "23:00", "01:00"⟩, ⟨"off_duty", "01:00", "13:30"⟩]
        = .int 870 :=
  ⟨by decide,
    (calculateCoverage_is_sum_of_elapsed
      [⟨"driving", "23:00", "01:00"⟩, ⟨"off_duty", "01:00", "13:30"⟩] (by decide)).1⟩

/-- C2: on entries whose times are well-formed `HH:MM` strings, `isComplete` is true
exactly when `calculateCoverage` is 1440, that is exactly when the elapsed minutes sum
to 1440; any other total, smaller or larger, gives false. -/
theorem isComplete_iff_coverage_1440 (es : List Entry)
    (h : ∀ e ∈ es, e.wellFormed = true) :
    (isComplete es = true ↔ calculateCoverage es = .int 1440) ∧
      isComplete es = decide ((es.map elapsedSpec).sum = 1440) := by
  refine ⟨strictEq_int_iff _ _, ?_⟩
  rw [isComplete, calculateCoverage_eq es h]
  rfl

theorem isComplete_iff_coverage_1440_witness :
    (∀ e ∈ [(⟨"driving", "00:00", "12:00"⟩ : Entry), ⟨"off_duty", "12:00", "00:01"⟩],
        e.wellFormed = true) ∧
      isComplete [⟨"driving", "00:00", "12:00"⟩, ⟨"off_duty", "12:00", "00:01"⟩] = false :=
  ⟨by decide,
    (isComplete_iff_coverage_1440
      [⟨"driving", "00:00", "12:00"⟩, ⟨"off_duty", "12:00", "00:01"⟩] (by decide)).2⟩

/-- C3, as the code has it: coverage is a running sum in double arithmetic, not a union.
On entries whose times are groups of at most two digits between colons (`HH:MM`,
`HH:MM:SS`, the empty text of a cleared input) the coverage of `E1 ++ E2` is the coverage
of `E1` plus the coverage of `E2`, overlapping or not, `NaN` on both sides when a time
has no minutes; the entries 00:00-12:00 and 06:00-18:00 give 720 + 720 = 1440 and
`isComplete = true`. -/
theorem calculateCoverage_append (E1 E2 : List Entry)
    (h1 : ∀ e ∈ E1, e.clockTimes = true) (h2 : ∀ e ∈ E2, e.clockTimes = true) :
    calculateCoverage (E1 ++ E2) = (calculateCoverage E1).add (calculateCoverage E2) ∧
      ∀ s1 s2,
        calculateCoverage [⟨s1, "00:00", "12:00"⟩] = .int 720 ∧
        calculateCoverage [⟨s2, "06:00", "18:00"⟩] = .int 720 ∧
        calculateCoverage [⟨s1, "00:00", "12:00"⟩, ⟨s2, "06:00", "18:00"⟩] = .int 1440 ∧
        isComplete [⟨s1, "00:00", "12:00"⟩, ⟨s2, "06:00", "18:00"⟩] = true := by
  refine ⟨?_, fun s1 s2 => ?_⟩
  · have hE1 := foldl_coverage_add E1 h1 (.int 0) rfl
    have hE2 := foldl_coverage_add E2 h2 (calculateCoverage E1) hE1.1
    show List.foldl _ (JsNumber.int 0) (E1 ++ E2) = _
    rw [List.foldl_append]
    exact hE2.2
  · have ha : ∀ e ∈ [(⟨s1, "00:00", "12:00"⟩ : Entry)], e.wellFormed = true := by
      intro e he
      rw [List.mem_singleton] at he
      subst he
      rfl
    have hb : ∀ e ∈ [(⟨s2, "06:00", "18:00"⟩ : Entry)], e.wellFormed = true := by
      intro e he
      rw [List.mem_singleton] at he
      subst he
      rfl
    have hab : ∀ e ∈ [(⟨s1, "00:00", "12:00"⟩ : Entry), ⟨s2, "06:00", "18:00"⟩],
        e.wellFormed = true := by
      intro e he
      rcases List.mem_cons.mp he with he | he
      · exact ha e (by rw [he]; exact List.mem_singleton_self _)
      · exact hb e he
    have e1 : calculateCoverage [⟨s1, "00:00", "12:00"⟩] = .int 720 := by
      rw [calculateCoverage_eq _ ha, coverageSpec, List.map, List.map, elapsedSpec_status]
      decide
    have e2 : calculateCoverage [⟨s2, "06:00", "18:00"⟩] = .int 720 := by
      rw [calculateCoverage_eq _ hb, coverageSpec, List.map, List.map, elapsedSpec_status]
      decide
    have e3 : calculateCoverage [⟨s1, "00:00", "12:00"⟩, ⟨s2, "06:00", "18:00"⟩]
        = .int 1440 := by
      rw [calculateCoverage_eq _ hab, coverageSpec, List.map, List.map, List.map,
        elapsedSpec_status s1, elapsedSpec_status s2]
      decide
    exact ⟨e1, e2, e3, by rw [isComplete, e3]; rfl⟩

theorem calculateCoverage_append_witness :
    (∀ e ∈ [(⟨"driving", "00:00", "12:00:30"⟩ : Entry), ⟨"off_duty", "", ""⟩],
        e.clockTimes = true) ∧
      (∀ e ∈ [(⟨"driving", "06:00", "18:00"⟩ : Entry)], e.clockTimes = true) ∧
      calculateCoverage
          ([⟨"driving", "00:00", "12:00:30"⟩, ⟨"off_duty", "", ""⟩] ++
            [⟨"driving", "06:00", "18:00"⟩])
        = (calculateCoverage [⟨"driving", "00:00", "12:00:30"⟩, ⟨"off_duty", "", ""⟩]).add
            (calculateCoverage [⟨"driving", "06:00", "18:00"⟩]) :=
  ⟨by decide, by decide,
    (calculateCoverage_append [⟨"driving", "00:00", "12:00:30"⟩, ⟨"off_duty", "", ""⟩]
      [⟨"driving", "06:00", "18:00"⟩] (by decide) (by decide)).1⟩

/-- C3 as stated fails: with minute fields `00.1`, `00.2` and `00.3` the entries add 0.1,
0.2 and 0.3; the coverage of the three together is (0.1 + 0.2) + 0.3 =
0.6000000000000001, while the coverage of the first plus the coverage of the other two
is 0.1 + (0.2 + 0.3) = 0.6. -/
theorem calculateCoverage_append_fails_on_fractions :
    calculateCoverage
        ([⟨"driving", "00:00", "00:00.1"⟩] ++
          [⟨"driving", "00:00", "00:00.2"⟩, ⟨"driving", "00:00", "00:00.3"⟩])
        = .frac 1351079888211149 51 ∧
      (calculateCoverage [⟨"driving", "00:00", "00:00.1"⟩]).add
          (calculateCoverage [⟨"driving", "00:00", "00:00.2"⟩, ⟨"driving", "00:00", "00:00.3"⟩])
        = .frac 5404319552844595 53 ∧
      calculateCoverage
        ([⟨"driving", "00:00", "00:00.1"⟩] ++
          [⟨"driving", "00:00", "00:00.2"⟩, ⟨"driving", "00:00", "00:00.3"⟩])
        ≠ (calculateCoverage [⟨"driving", "00:00", "00:00.1"⟩]).add
          (calculateCoverage [⟨"driving", "00:00", "00:00.2"⟩, ⟨"driving", "00:00", "00:00.3"⟩]) := by
  have hl : calculateCoverage
        ([⟨"driving", "00:00", "00:00.1"⟩] ++
          [⟨"driving", "00:00", "00:00.2"⟩, ⟨"driving", "00:00", "00:00.3"⟩])
        = .frac 1351079888211149 51 := by rfl
  have hr : (calculateCoverage [⟨"driving", "00:00", "00:00.1"⟩]).add
          (calculateCoverage [⟨"driving", "00:00", "00:00.2"⟩, ⟨"driving", "00:00", "00:00.3"⟩])
        = .frac 5404319552844595 53 := by rfl
  refine ⟨hl, hr, ?_⟩
  rw [hl, hr]
  decide

/-! ## Session handling: the claims -/

theorem requestInterceptor_bearer (ls : Storage) (config : Config) (access : Option String) :
    (requestInterceptor { ls with access_token := some (toStr access) }
      { config with _retry := true, Authorization := some ("Bearer " ++ toStr access) }).Authorization
      = some ("Bearer " ++ toStr access) := by
  simp only [requestInterceptor]
  split <;> rfl

/-- After a first 401, a stored refresh token and a successful exchange, `api`
has stored the new token and made exactly three calls. -/
theorem api_after_refresh {β : Type} (srv : Server β) (st : Client) (config : Config)
    (r1 : Response β) (access : Option String)
    (hretry : config._retry = false)
    (hresp : srv.respond st.trace (requestInterceptor st.localStorage config) = some r1)
    (h401 : r1.status = 401)
    (htok : truthy st.localStorage.refresh_token = true)
    (href : srv.refresh (st.trace ++ [Event.send (requestInterceptor st.localStorage config)])
      (toStr st.localStorage.refresh_token) = .resolved access) :
    api srv st config =
      ({ localStorage := { st.localStorage with access_token := some (toStr access) },
         location := st.location,
         trace := st.trace ++
           [Event.send (requestInterceptor st.localStorage config),
            Event.refresh (toStr st.localStorage.refresh_token),
            Event.send (requestInterceptor
              { st.localStorage with access_token := some (toStr access) }
              { requestInterceptor st.localStorage config with
                _retry := true, Authorization := some ("Bearer " ++ toStr access) })] },
        settle
          (requestInterceptor { st.localStorage with access_token := some (toStr access) }
            { requestInterceptor st.localStorage config with
              _retry := true, Authorization := some ("Bearer " ++ toStr access) })
          (srv.respond
            (st.trace ++ [Event.send (requestInterceptor st.localStorage config)]
              ++ [Event.refresh (toStr st.localStorage.refresh_token)])
            (requestInterceptor { st.localStorage with access_token := some (toStr access) }
              { requestInterceptor st.localStorage config with
                _retry := true, Authorization := some ("Bearer " ++ toStr access) }))) := by
  rw [api_of_refresh_resolved srv st config r1 access hretry hresp h401 htok href]
  rw [api_of_retry _ _ _ rfl]
  simp

/-- C4: each request is retried at most once.  With a stored refresh token whose
exchange succeeds, a first 401 leads to exactly one refresh call and exactly one
re-sent request; when the re-sent request is answered 401 as well, nothing more is
called and that 401 failure is what the caller gets. -/
theorem api_retries_at_most_once {β : Type} (srv : Server β) (st : Client) (config : Config)
    (r1 : Response β) (access : Option String)
    (hretry : config._retry = false)
    (htok : truthy st.localStorage.refresh_token = true)
    (hresp : srv.respond st.trace (requestInterceptor st.localStorage config) = some r1)
    (h401 : r1.status = 401)
    (href : srv.refresh (st.trace ++ [Event.send (requestInterceptor st.localStorage config)])
      (toStr st.localStorage.refresh_token) = .resolved access) :
    ∃ resent : Config,
      (api srv st config).1.trace = st.trace ++
        [Event.send (requestInterceptor st.localStorage config),
         Event.refresh (toStr st.localStorage.refresh_token),
         Event.send resent] ∧
      resent._retry = true ∧ resent.method = config.method ∧ resent.url = config.url ∧
      resent.data = config.data ∧
      ∀ r2 : Response β,
        srv.respond (st.trace ++ [Event.send (requestInterceptor st.localStorage config),
          Event.refresh (toStr st.localStorage.refresh_token)]) resent = some r2 →
        r2.status = 401 →
        (api srv st config).2 = .error (.response resent r2) := by
  refine ⟨requestInterceptor { st.localStorage with access_token := some (toStr access) }
    { requestInterceptor st.localStorage config with
      _retry := true, Authorization := some ("Bearer " ++ toStr access) }, ?_⟩
  rw [api_after_refresh srv st config r1 access hretry hresp h401 htok href]
  refine ⟨rfl, ?_, ?_, ?_, ?_, ?_⟩
  · rw [requestInterceptor_retry]
  · simp only [requestInterceptor]; split <;> split <;> rfl
  · simp only [requestInterceptor]; split <;> split <;> rfl
  · simp only [requestInterceptor]; split <;> split <;> rfl
  · intro r2 h2 h2s
    have h2' : srv.respond
        (st.trace ++ [Event.send (requestInterceptor st.localStorage config)]
          ++ [Event.refresh (toStr st.localStorage.refresh_token)])
        (requestInterceptor { st.localStorage with access_token := some (toStr access) }
          { requestInterceptor st.localStorage config with
            _retry := true, Authorization := some ("Bearer " ++ toStr access) }) = some r2 := by
      rw [← h2]; simp
    simp only [h2', settle, h2s, validateStatus_401]
    rfl

theorem api_retries_at_most_once_witness :
    ∃ resent : Config,
      (api srvExpired signedIn (request "get" "/logs/" "")).1.trace =
        [Event.send ⟨"get", "/logs/", "", some "Bearer stale", false⟩,
         Event.refresh "r1",
         Event.send resent] ∧
      resent._retry = true ∧ resent.method = "get" ∧ resent.url = "/logs/" ∧
      resent.data = "" ∧
      ∀ r2 : Response Unit,
        srvExpired.respond [Event.send ⟨"get", "/logs/", "", some "Bearer stale", false⟩,
          Event.refresh "r1"] resent = some r2 →
        r2.status = 401 →
        (api srvExpired signedIn (request "get" "/logs/" "")).2 = .error (.response resent r2) :=
  api_retries_at_most_once srvExpired signedIn (request "get" "/logs/" "") ⟨401, ()⟩
    (some "fresh") rfl (by decide) rfl rfl rfl

/-- A 401 with no usable refresh token, whether the request is flagged `_retry` or not. -/
theorem api_of_401_unrefreshable {β : Type} (srv : Server β) (st : Client)
    (config : Config) (r1 : Response β)
    (hresp : srv.respond st.trace (requestInterceptor st.localStorage config) = some r1)
    (h401 : r1.status = 401)
    (htok : truthy st.localStorage.refresh_token = false) :
    (api srv st config).1 =
        { st with trace := st.trace ++ [Event.send (requestInterceptor st.localStorage config)] } ∧
      (api srv st config).2 =
        .error (.response { requestInterceptor st.localStorage config with _retry := true } r1) := by
  cases hretry : config._retry with
  | false =>
    rw [api_of_no_refresh_token srv st config r1 hretry hresp h401 htok]
    exact ⟨rfl, rfl⟩
  | true =>
    rw [api_of_retry srv st config hretry, hresp]
    have h := requestInterceptor_retry st.localStorage config
    rw [hretry] at h
    have hs : ({ requestInterceptor st.localStorage config with _retry := true } : Config)
        = requestInterceptor st.localStorage config := by
      generalize requestInterceptor st.localStorage config = sent at h
      cases sent
      simp only at h
      rw [h]
    rw [hs]
    refine ⟨rfl, ?_⟩
    simp [settle, h401, validateStatus_401]

/-- C5, as the code has it: a 401 received while no refresh token is stored leads to no
refresh call, leaves both stored tokens and the page location as they were, and
is rejected to the caller as the 401 failure of the request. -/
theorem api_401_without_refresh_token {β : Type} (srv : Server β) (st : Client)
    (config : Config) (r1 : Response β)
    (hresp : srv.respond st.trace (requestInterceptor st.localStorage config) = some r1)
    (h401 : r1.status = 401)
    (htok : truthy st.localStorage.refresh_token = false) :
    (api srv st config).1.trace
        = st.trace ++ [Event.send (requestInterceptor st.localStorage config)] ∧
      (api srv st config).1.localStorage = st.localStorage ∧
      (api srv st config).1.location = st.location ∧
      (api srv st config).2 =
        .error (.response { requestInterceptor st.localStorage config with _retry := true } r1) := by
  obtain ⟨h1, h2⟩ := api_of_401_unrefreshable srv st config r1 hresp h401 htok
  rw [h1, h2]
  exact ⟨rfl, rfl, rfl, rfl⟩

theorem api_401_without_refresh_token_witness :
    (api srvExpired accessOnly (request "get" "/logs/" "")).1.trace
        = [Event.send ⟨"get", "/logs/", "", some "Bearer stale", false⟩] ∧
      (api srvExpired accessOnly (request "get" "/logs/" "")).1.localStorage
        = ⟨some "stale", none⟩ ∧
      (api srvExpired accessOnly (request "get" "/logs/" "")).1.location = none ∧
      (api srvExpired accessOnly (request "get" "/logs/" "")).2 =
        .error (.response ⟨"get", "/logs/", "", some "Bearer stale", true⟩ ⟨401, ()⟩) :=
  api_401_without_refresh_token srvExpired accessOnly (request "get" "/logs/" "") ⟨401, ()⟩
    rfl rfl (by decide)

/-- C5 as stated fails: with an access token and no refresh token stored, a 401
leaves the access token in the store. -/
theorem api_401_without_refresh_token_not_cleared :
    accessOnly.localStorage.refresh_token = none ∧
      srvExpired.respond accessOnly.trace
        (requestInterceptor accessOnly.localStorage (request "get" "/logs/" ""))
        = some ⟨401, ()⟩ ∧
      (api srvExpired accessOnly (request "get" "/logs/" "")).1.localStorage.access_token
        = some "stale" ∧
      (api srvExpired accessOnly (request "get" "/logs/" "")).1.localStorage
        ≠ clearAuthTokens accessOnly.localStorage := by
  have h := api_of_no_refresh_token srvExpired accessOnly (request "get" "/logs/" "") ⟨401, ()⟩
    rfl rfl rfl (by decide)
  rw [h]
  exact ⟨rfl, rfl, rfl, by decide⟩

/-- C6, as the code has it: on a first 401 with a stored refresh token whose exchange
fails, both stored tokens are removed, the page is sent to `/login`, and the caller
receives the failure of the refresh exchange. -/
theorem api_refresh_failure_clears_tokens {β : Type} (srv : Server β) (st : Client)
    (config : Config) (r1 : Response β) (e : RefreshError β)
    (hretry : config._retry = false)
    (hresp : srv.respond st.trace (requestInterceptor st.localStorage config) = some r1)
    (h401 : r1.status = 401)
    (htok : truthy st.localStorage.refresh_token = true)
    (href : (srv.refresh (st.trace ++ [Event.send (requestInterceptor st.localStorage config)])
      (toStr st.localStorage.refresh_token)).error? = some e) :
    (api srv st config).1.localStorage.access_token = none ∧
      (api srv st config).1.localStorage.refresh_token = none ∧
      (api srv st config).1.location = some "/login" ∧
      (api srv st config).2 = .error (.refresh e) := by
  rw [api_of_refresh_failed srv st config r1 e hretry hresp h401 htok href]
  exact ⟨rfl, rfl, rfl, rfl⟩

theorem api_refresh_failure_clears_tokens_witness :
    (api srvRevoked signedIn (request "get" "/logs/" "")).1.localStorage.access_token = none ∧
      (api srvRevoked signedIn (request "get" "/logs/" "")).1.localStorage.refresh_token = none ∧
      (api srvRevoked signedIn (request "get" "/logs/" "")).1.location = some "/login" ∧
      (api srvRevoked signedIn (request "get" "/logs/" "")).2
        = .error (.refresh (.rejected (some ⟨400, ()⟩))) :=
  api_refresh_failure_clears_tokens srvRevoked signedIn (request "get" "/logs/" "") ⟨401, ()⟩
    (.rejected (some ⟨400, ()⟩)) rfl rfl rfl (by decide) rfl

/-- C6 as stated fails: when the refresh exchange is turned down with status 400, the
caller receives that failure, of status 400, and not the 401 failure of its request. -/
theorem api_refresh_failure_not_original :
    srvRevoked.respond signedIn.trace
        (requestInterceptor signedIn.localStorage (request "get" "/logs/" ""))
        = some ⟨401, ()⟩ ∧
      (∃ e, (api srvRevoked signedIn (request "get" "/logs/" "")).2 = .error e ∧
        e.status = some 400) ∧
      ∀ (c : Config) (r : Response Unit),
        (api srvRevoked signedIn (request "get" "/logs/" "")).2 ≠ .error (.response c r) := by
  have h := api_of_refresh_failed srvRevoked signedIn (request "get" "/logs/" "") ⟨401, ()⟩
    (.rejected (some ⟨400, ()⟩)) rfl rfl rfl (by decide) rfl
  rw [h]
  refine ⟨rfl, ⟨_, rfl, rfl⟩, ?_⟩
  intro c r hcr
  cases hcr

/-- C7, as the code has it: with no refresh token stored, a login attempt answered 401
fails with that 401 and leaves both stored tokens exactly as they were. -/
theorem login_failure_keeps_tokens {β : Type} (srv : Server β) (st : Client)
    (username password : String) (r1 : Response β)
    (htok : truthy st.localStorage.refresh_token = false)
    (hresp : srv.respond st.trace (requestInterceptor st.localStorage
      (request "post" "/auth/login/" (username ++ "\n" ++ password))) = some r1)
    (h401 : r1.status = 401) :
    (authAPI.login srv st username password).1.localStorage = st.localStorage ∧
      ∃ e, (authAPI.login srv st username password).2 = .error e ∧ e.status = some 401 := by
  obtain ⟨h1, h2⟩ := api_of_401_unrefreshable srv st
    (request "post" "/auth/login/" (username ++ "\n" ++ password)) r1 hresp h401 htok
  refine ⟨?_, Failure.response
    { requestInterceptor st.localStorage
        (request "post" "/auth/login/" (username ++ "\n" ++ password)) with _retry := true } r1,
    ?_, ?_⟩
  · show (api srv st _).1.localStorage = _
    rw [h1]
  · show Except.map _ (api srv st _).2 = _
    rw [h2]
    rfl
  · simp [Failure.status, Failure.response?, h401]

theorem login_failure_keeps_tokens_witness :
    (authAPI.login srvExpired accessOnly "driver" "wrong").1.localStorage
        = accessOnly.localStorage ∧
      ∃ e, (authAPI.login srvExpired accessOnly "driver" "wrong").2 = .error e ∧
        e.status = some 401 :=
  login_failure_keeps_tokens srvExpired accessOnly "driver" "wrong" ⟨401, ()⟩
    (by decide) rfl rfl

/-- C7 as stated fails: with both tokens stored, a login attempt answered 401 makes the
response interceptor exchange the refresh token; the login fails with a 401 and the
stored access token has been replaced. -/
theorem login_failure_replaces_access_token :
    signedIn.localStorage.access_token = some "stale" ∧
      (authAPI.login srvExpired signedIn "driver" "wrong").1.localStorage.access_token
        = some "fresh" ∧
      (∃ e, (authAPI.login srvExpired signedIn "driver" "wrong").2 = .error e ∧
        e.status = some 401) ∧
      (authAPI.login srvExpired signedIn "driver" "wrong").1.localStorage
        ≠ signedIn.localStorage := by
  have h := api_after_refresh srvExpired signedIn
    (request "post" "/auth/login/" ("driver" ++ "\n" ++ "wrong")) ⟨401, ()⟩ (some "fresh")
    rfl rfl rfl (by decide) rfl
  simp only [authAPI.login, h]
  refine ⟨rfl, rfl, ⟨_, rfl, rfl⟩, by decide⟩

/-- C8: on a first 401 whose refresh exchange succeeds with a new access token `a`,
afterwards the stored access token is `a`, the stored refresh token is unchanged, and
the request sent again carries the header `Authorization: Bearer a`. -/
theorem api_refresh_stores_and_attaches {β : Type} (srv : Server β) (st : Client)
    (config : Config) (r1 : Response β) (a : String)
    (hretry : config._retry = false)
    (hresp : srv.respond st.trace (requestInterceptor st.localStorage config) = some r1)
    (h401 : r1.status = 401)
    (htok : truthy st.localStorage.refresh_token = true)
    (href : srv.refresh (st.trace ++ [Event.send (requestInterceptor st.localStorage config)])
      (toStr st.localStorage.refresh_token) = .resolved (some a)) :
    (api srv st config).1.localStorage.access_token = some a ∧
      (api srv st config).1.localStorage.refresh_token = st.localStorage.refresh_token ∧
      ∃ resent : Config,
        (api srv st config).1.trace.getLast? = some (Event.send resent) ∧
        resent.Authorization = some ("Bearer " ++ a) ∧
        resent.method = config.method ∧ resent.url = config.url ∧ resent.data = config.data := by
  rw [api_after_refresh srv st config r1 (some a) hretry hresp h401 htok href]
  refine ⟨rfl, rfl,
    requestInterceptor { st.localStorage with access_token := some (toStr (some a)) }
      { requestInterceptor st.localStorage config with
        _retry := true, Authorization := some ("Bearer " ++ toStr (some a)) },
    ?_, requestInterceptor_bearer _ _ (some a), ?_, ?_, ?_⟩
  · simp
  · simp only [requestInterceptor]; split <;> split <;> rfl
  · simp only [requestInterceptor]; split <;> split <;> rfl
  · simp only [requestInterceptor]; split <;> split <;> rfl

theorem api_refresh_stores_and_attaches_witness :
    (api srvExpired signedIn (request "get" "/logs/" "")).1.localStorage.access_token
        = some "fresh" ∧
      (api srvExpired signedIn (request "get" "/logs/" "")).1.localStorage.refresh_token
        = some "r1" ∧
      ∃ resent : Config,
        (api srvExpired signedIn (request "get" "/logs/" "")).1.trace.getLast?
          = some (Event.send resent) ∧
        resent.Authorization = some ("Bearer " ++ "fresh") ∧
        resent.method = "get" ∧ resent.url = "/logs/" ∧ resent.data = "" :=
  api_refresh_stores_and_attaches srvExpired signedIn (request "get" "/logs/" "") ⟨401, ()⟩
    "fresh" rfl rfl rfl (by decide) rfl

/-! ## Submitting a log: the claims -/

/-- Whatever happens next, `api` first transmits the request. -/
theorem api_trace_prefix {β : Type} (srv : Server β) (st : Client) (config : Config) :
    ∃ rest, (api srv st config).1.trace
      = st.trace ++ Event.send (requestInterceptor st.localStorage config) :: rest := by
  by_cases h401 : ∃ r, srv.respond st.trace (requestInterceptor st.localStorage config) = some r
      ∧ r.status = 401
  · obtain ⟨r1, hresp, hst⟩ := h401
    cases hretry : config._retry with
    | true =>
      rw [api_of_retry srv st config hretry]
      exact ⟨[], rfl⟩
    | false =>
      cases htok : truthy st.localStorage.refresh_token with
      | false =>
        rw [api_of_no_refresh_token srv st config r1 hretry hresp hst htok]
        exact ⟨[], rfl⟩
      | true =>
        cases href : srv.refresh
            (st.trace ++ [Event.send (requestInterceptor st.localStorage config)])
            (toStr st.localStorage.refresh_token) with
        | rejected response =>
          rw [api_of_refresh_failed srv st config r1 (.rejected response) hretry hresp hst htok
            (by rw [href]; rfl)]
          exact ⟨[Event.refresh (toStr st.localStorage.refresh_token)], by simp⟩
        | resolvedNull =>
          rw [api_of_refresh_failed srv st config r1 .typeError hretry hresp hst htok
            (by rw [href]; rfl)]
          exact ⟨[Event.refresh (toStr st.localStorage.refresh_token)], by simp⟩
        | resolved access =>
          rw [api_after_refresh srv st config r1 access hretry hresp hst htok href]
          exact ⟨_, rfl⟩
  · rw [api_of_other srv st config (fun r hr hs => h401 ⟨r, hr, hs⟩)]
    exact ⟨[], rfl⟩

/-- C9, as the code has it: while the coverage is not exactly 1440 minutes the button
"Submit Log" is disabled, so a click on it runs nothing: no request is sent and the
form, its error message included, stays as it was. -/
theorem clickSubmitLog_incomplete (srv : Server Body) (confirmed : Bool) (s : LogForm)
    (st : Client) (h : isComplete s.formData.duty_status_entries = false) :
    clickSubmitLog srv confirmed s st = (s, st) := by
  simp [clickSubmitLog, submitLogDisabled, h]

theorem clickSubmitLog_incomplete_witness :
    isComplete (blankForm (some "7") "2024-05-01").formData.duty_status_entries = false ∧
      clickSubmitLog srvAccept true (blankForm (some "7") "2024-05-01") accessOnly
        = (blankForm (some "7") "2024-05-01", accessOnly) :=
  ⟨by decide,
    clickSubmitLog_incomplete srvAccept true (blankForm (some "7") "2024-05-01") accessOnly
      (by decide)⟩

/-- C9 as stated fails: `handleSubmitLog` has no completeness check of its own; run on a
log without entries and confirmed, it sends the submit request and sets no error. -/
theorem handleSubmitLog_incomplete_sends :
    isComplete (blankForm (some "7") "2024-05-01").formData.duty_status_entries = false ∧
      (handleSubmitLog srvAccept true (blankForm (some "7") "2024-05-01") accessOnly).2.trace
        = [Event.send ⟨"post", "/logs/7/submit/", "", some "Bearer stale", false⟩] ∧
      (handleSubmitLog srvAccept true (blankForm (some "7") "2024-05-01") accessOnly).1.error
        = .str "" ∧
      (handleSubmitLog srvAccept true (blankForm (some "7") "2024-05-01") accessOnly).1.success
        = "Log submitted successfully!" := by
  have h := api_of_other srvAccept accessOnly (request "post" ("/logs/" ++ "7" ++ "/submit/") "")
    (by intro r hr; cases hr; decide)
  simp only [handleSubmitLog, logsAPI.submit, blankForm, toStr, h]
  decide

/-- C10, as the code has it: the form keeps no `is_submitted` flag.  What `fetchLog`
stores has no such field, and for every loaded log, submitted or not, whose coverage is
complete, a confirmed click on "Submit Log" sends the request `POST /logs/{id}/submit/`. -/
theorem clickSubmitLog_ignores_is_submitted (srvGet : Server DailyLog) (srvSubmit : Server Body)
    (s : LogForm) (st st1 : Client) (log : DailyLog)
    (hedit : s.isEdit = true) (hload : s.loading = false)
    (hget : logsAPI.get srvGet st (toStr s.id) = (st1, .ok log))
    (hcomplete : isComplete (log.duty_status_entries.getD []) = true) :
    fetchLog srvGet s st =
        ({ s with formData :=
            { date := log.date
              start_location := log.start_location
              end_location := log.end_location
              carrier_name := log.carrier_name
              vehicle_id := log.vehicle_id
              total_miles := log.total_miles
              remarks := if truthy log.remarks then toStr log.remarks else ""
              duty_status_entries := log.duty_status_entries.getD [] } }, st1) ∧
      Event.send (requestInterceptor st1.localStorage
          (request "post" ("/logs/" ++ toStr s.id ++ "/submit/") ""))
        ∈ (clickSubmitLog srvSubmit true (fetchLog srvGet s st).1 (fetchLog srvGet s st).2).2.trace := by
  have hf : fetchLog srvGet s st =
        ({ s with formData :=
            { date := log.date
              start_location := log.start_location
              end_location := log.end_location
              carrier_name := log.carrier_name
              vehicle_id := log.vehicle_id
              total_miles := log.total_miles
              remarks := if truthy log.remarks then toStr log.remarks else ""
              duty_status_entries := log.duty_status_entries.getD [] } }, st1) := by
    simp only [fetchLog, hget]
  refine ⟨hf, ?_⟩
  rw [hf]
  obtain ⟨rest, hrest⟩ := api_trace_prefix srvSubmit st1
    (request "post" ("/logs/" ++ toStr s.id ++ "/submit/") "")
  have hedit2 : truthy s.id = true := hedit
  simp only [clickSubmitLog, LogForm.isEdit, submitLogDisabled, hedit2, hload, hcomplete,
    handleSubmitLog, logsAPI.submit]
  simp only [Bool.true_and, Bool.or_false, Bool.not_true, Bool.false_eq_true, if_false,
    Bool.not_false, if_true, beq_iff_eq, Bool.false_or, Bool.not_eq_true', beq_self_eq_true,
    Bool.true_eq_false, decide_False, decide_True]
  generalize hx : api srvSubmit st1 (request "post" ("/logs/" ++ toStr s.id ++ "/submit/") "") = x
    at hrest
  obtain ⟨x1, x2⟩ := x
  cases x2 with
  | ok r => simp only at hrest; simp [Except.map, hrest]
  | error e => simp only at hrest; simp [Except.map, hrest]

/-- Loading `submittedLog`: one `GET` request, answered with the log. -/
theorem logsAPI_get_srvLog :
    logsAPI.get srvLog accessOnly "7" =
      ({ accessOnly with
          trace := [Event.send ⟨"get", "/logs/7/", "", some "Bearer stale", false⟩] },
        .ok submittedLog) := by
  have h := api_of_other srvLog accessOnly (request "get" ("/logs/" ++ "7" ++ "/") "")
    (by intro r hr; cases hr; decide)
  simp only [logsAPI.get, h]
  rfl

theorem clickSubmitLog_ignores_is_submitted_witness :
    submittedLog.is_submitted = true ∧
      Event.send ⟨"post", "/logs/7/submit/", "", some "Bearer stale", false⟩
        ∈ (clickSubmitLog srvReject true
            (fetchLog srvLog (blankForm (some "7") "2024-05-02") accessOnly).1
            (fetchLog srvLog (blankForm (some "7") "2024-05-02") accessOnly).2).2.trace :=
  ⟨rfl,
    (clickSubmitLog_ignores_is_submitted srvLog srvReject (blankForm (some "7") "2024-05-02")
      accessOnly
      { accessOnly with trace := [Event.send ⟨"get", "/logs/7/", "", some "Bearer stale", false⟩] }
      submittedLog (by decide) rfl logsAPI_get_srvLog (by decide)).2⟩

/-- C10 as stated fails: for a log the backend holds as submitted, the form loads it
like any other, and a confirmed click on "Submit Log" sends the submit request; it is
the backend that turns it down. -/
theorem submit_of_submitted_log_is_sent :
    submittedLog.is_submitted = true ∧
      (clickSubmitLog srvReject true
          (fetchLog srvLog (blankForm (some "7") "2024-05-02") accessOnly).1
          (fetchLog srvLog (blankForm (some "7") "2024-05-02") accessOnly).2).2.trace
        = [Event.send ⟨"get", "/logs/7/", "", some "Bearer stale", false⟩,
           Event.send ⟨"post", "/logs/7/submit/", "", some "Bearer stale", false⟩] ∧
      (clickSubmitLog srvReject true
          (fetchLog srvLog (blankForm (some "7") "2024-05-02") accessOnly).1
          (fetchLog srvLog (blankForm (some "7") "2024-05-02") accessOnly).2).1.error
        = .str "Log is already submitted." := by
  have hf : fetchLog srvLog (blankForm (some "7") "2024-05-02") accessOnly =
      ({ blankForm (some "7") "2024-05-02" with
          formData :=
            { date := "2024-05-01", start_location := "Reno", end_location := "Elko",
              carrier_name := "Acme", vehicle_id := "T-12", total_miles := "289.00",
              remarks := "",
              duty_status_entries :=
                [⟨"off_duty", "00:00", "12:00"⟩, ⟨"driving", "12:00", "00:00"⟩] } },
        { accessOnly with
          trace := [Event.send ⟨"get", "/logs/7/", "", some "Bearer stale", false⟩] }) := by
    have hg : logsAPI.get srvLog accessOnly (toStr (blankForm (some "7") "2024-05-02").id)
        = _ := logsAPI_get_srvLog
    simp only [fetchLog, hg]
    decide
  have hs := api_of_other srvReject
    { accessOnly with trace := [Event.send ⟨"get", "/logs/7/", "", some "Bearer stale", false⟩] }
    (request "post" ("/logs/" ++ "7" ++ "/submit/") "")
    (by intro r hr; cases hr; decide)
  have hc : isComplete [(⟨"off_duty", "00:00", "12:00"⟩ : Entry), ⟨"driving", "12:00", "00:00"⟩]
      = true := by decide
  rw [hf]
  simp only [clickSubmitLog, LogForm.isEdit, submitLogDisabled, blankForm, hc, handleSubmitLog,
    logsAPI.submit, toStr, hs]
  decide

/-! ## Editing the entries: the claims -/

/-- C11, as the code has it: with an index that is no array index, negative or above
`2 ^ 32 - 2`, `handleEntryChange` leaves the entry list as it was; with an array index at
or beyond the length it is no no-op: the list grows to length `index + 1`, the old
entries unchanged, then holes, then a new element that has only the given member. -/
theorem handleEntryChange_out_of_range (es : List Entry) (index : Int) (field : EntryField)
    (value : String) (h : index < 0 ∨ (es.length : Int) ≤ index) :
    handleEntryChange es index field value =
        (if index < 0 ∨ (maxArrayIndex : Int) < index then spread es
         else spread es ++ List.replicate (index.toNat - es.length) none ++
           [some (setField none field value)]) ∧
      (handleEntryChange es index field value).length =
        (if index < 0 ∨ (maxArrayIndex : Int) < index then es.length else index.toNat + 1) := by
  have hlen : (spread es).length = es.length := by simp [spread]
  by_cases hout : index < 0 ∨ (maxArrayIndex : Int) < index
  · simp [handleEntryChange, hout, hlen]
  · have hneg : ¬ index < 0 := fun hn => hout (Or.inl hn)
    have hge : (es.length : Int) ≤ index := h.resolve_left hneg
    have hnat : es.length ≤ index.toNat := by omega
    have hget : (spread es).get? index.toNat = none := by
      rw [List.get?_eq_none]
      omega
    have heq : handleEntryChange es index field value =
        spread es ++ List.replicate (index.toNat - es.length) none ++
          [some (setField none field value)] := by
      simp only [handleEntryChange, hout, if_false, assignAt, hlen, hget, Option.join]
      rw [if_neg (by omega)]
      rfl
    rw [heq]
    simp only [hout, if_false, List.length_append, List.length_replicate, hlen,
      List.length_singleton, true_and]
    omega

theorem handleEntryChange_out_of_range_witness :
    ((3 : Int) < 0 ∨ (([⟨"driving", "08:00", "12:00"⟩] : List Entry).length : Int) ≤ 3) ∧
      handleEntryChange [⟨"driving", "08:00", "12:00"⟩] 3 .end_time "13:00" =
        [some ⟨some "driving", some "08:00", some "12:00"⟩, none, none,
         some ⟨none, none, some "13:00"⟩] ∧
      handleEntryChange [⟨"driving", "08:00", "12:00"⟩] 4294967295 .end_time "13:00" =
        [some ⟨some "driving", some "08:00", some "12:00"⟩] :=
  ⟨by decide,
    (handleEntryChange_out_of_range [⟨"driving", "08:00", "12:00"⟩] 3 .end_time "13:00"
      (by decide)).1,
    (handleEntryChange_out_of_range [⟨"driving", "08:00", "12:00"⟩] 4294967295 .end_time
      "13:00" (by decide)).1⟩

/-- C11 as stated fails: on the empty list, index 0 is out of range, and the call leaves
a list of one element. -/
theorem handleEntryChange_out_of_range_grows :
    ¬ ((0 : Int) < (([] : List Entry).length : Int)) ∧
      handleEntryChange [] 0 .status "driving" = [some ⟨some "driving", none, none⟩] ∧
      (handleEntryChange [] 0 .status "driving").length ≠ ([] : List Entry).length ∧
      handleEntryChange [] 0 .status "driving" ≠ spread [] := by
  decide

/-! ## Logging out: the claim -/

/-- C14: after `clearAuthTokens`, whatever the store held, the request interceptor
returns a request that has no `Authorization` header of its own with none attached, and
a call of `api` transmits exactly that request and nothing else. -/
theorem requestInterceptor_after_clearAuthTokens {β : Type} (srv : Server β) (st : Client)
    (config : Config) (h : config.Authorization = none) :
    (requestInterceptor (clearAuthTokens st.localStorage) config).Authorization = none ∧
      requestInterceptor (clearAuthTokens st.localStorage) config = config ∧
      (api srv { st with localStorage := clearAuthTokens st.localStorage } config).1.trace
        = st.trace ++ [Event.send config] := by
  have hri : requestInterceptor (clearAuthTokens st.localStorage) config = config := by
    simp [requestInterceptor, clearAuthTokens, truthy]
  refine ⟨by rw [hri, h], hri, ?_⟩
  by_cases h401 : ∃ r, srv.respond st.trace config = some r ∧ r.status = 401
  · obtain ⟨r1, hresp, hst⟩ := h401
    have := api_of_401_unrefreshable srv
      { st with localStorage := clearAuthTokens st.localStorage } config r1
      (by simp only [hri]; exact hresp) hst (by simp [clearAuthTokens, truthy])
    rw [this.1]
    simp only [hri]
  · have := api_of_other srv { st with localStorage := clearAuthTokens st.localStorage } config
      (by
        intro r hr hs
        simp only [hri] at hr
        exact h401 ⟨r, hr, hs⟩)
    rw [this]
    simp only [hri]

theorem requestInterceptor_after_clearAuthTokens_witness :
    (requestInterceptor (clearAuthTokens signedIn.localStorage)
        (request "get" "/logs/" "")).Authorization = none ∧
      requestInterceptor (clearAuthTokens signedIn.localStorage) (request "get" "/logs/" "")
        = request "get" "/logs/" "" ∧
      (api srvExpired { signedIn with localStorage := clearAuthTokens signedIn.localStorage }
          (request "get" "/logs/" "")).1.trace
        = [Event.send ⟨"get", "/logs/", "", none, false⟩] :=
  requestInterceptor_after_clearAuthTokens srvExpired signedIn (request "get" "/logs/" "") rfl

/-! ## Bounds on coverage: the claim -/

/-- The fields of a valid time of day are in range. -/
theorem isTimeOfDay_bounds {t : String} (h : isTimeOfDay t = true) :
    isHHMM t = true ∧ 0 ≤ hourOf t ∧ hourOf t < 24 ∧ 0 ≤ minuteOf t ∧ minuteOf t < 60 := by
  simp only [isTimeOfDay, Bool.and_eq_true, decide_eq_true_eq] at h
  obtain ⟨⟨hw, hh⟩, hm⟩ := h
  obtain ⟨a, b, c, d, hdata, ha, hb, hc, hd⟩ := isHHMM_data hw
  have ba := isDigit_bounds ha
  have bb := isDigit_bounds hb
  have bc := isDigit_bounds hc
  have bd := isDigit_bounds hd
  refine ⟨hw, ?_, hh, ?_, hm⟩
  · simp only [hourOf, fieldAt, hdata, List.getD_cons_zero, List.getD_cons_succ]
    omega
  · simp only [minuteOf, fieldAt, hdata, List.getD_cons_zero, List.getD_cons_succ]
    omega

/-- One entry with valid times of day adds between 0 and 1439 minutes. -/
theorem elapsedSpec_bounds {e : Entry} (h : e.validTimes = true) :
    e.wellFormed = true ∧ 0 ≤ elapsedSpec e ∧ elapsedSpec e ≤ 1439 ∧
      (e.start_time = e.end_time → elapsedSpec e = 0) := by
  simp only [Entry.validTimes, Bool.and_eq_true] at h
  obtain ⟨hs, he⟩ := h
  obtain ⟨ws, s1, s2, s3, s4⟩ := isTimeOfDay_bounds hs
  obtain ⟨we, e1, e2, e3, e4⟩ := isTimeOfDay_bounds he
  refine ⟨by simp [Entry.wellFormed, ws, we], ?_, ?_, ?_⟩
  · simp only [elapsedSpec]
    split <;> omega
  · simp only [elapsedSpec]
    split <;> omega
  · intro heq
    simp only [elapsedSpec, heq]
    simp

theorem calculateCoverage_singleton {e : Entry} (h : e.wellFormed = true) :
    calculateCoverage [e] = .int (elapsedSpec e) := by
  have hw : ∀ x ∈ [e], x.wellFormed = true := by
    intro x hx
    rw [List.mem_singleton] at hx
    rw [hx]
    exact h
  rw [calculateCoverage_eq _ hw]
  simp [coverageSpec]

/-- C15: an entry with valid times of day (hours 0-23, minutes 0-59) adds between 0 and
1439 minutes to `calculateCoverage`, and 0 when its start equals its end, as for the
entry `addEntry` creates; hence a log with fewer than two entries is never complete. -/
theorem entry_contribution_bounds (es : List Entry) (h : ∀ e ∈ es, e.validTimes = true) :
    (∀ e ∈ es, ∃ n : Int, calculateCoverage [e] = .int n ∧ 0 ≤ n ∧ n ≤ 1439 ∧
        (e.start_time = e.end_time → n = 0)) ∧
      (es.length < 2 → isComplete es = false) ∧
      (∀ formData : FormData, formData.duty_status_entries = [] →
        calculateCoverage (addEntry formData).duty_status_entries = .int 0) := by
  refine ⟨?_, ?_, ?_⟩
  · intro e he
    obtain ⟨hw, h0, h1, h2⟩ := elapsedSpec_bounds (h e he)
    exact ⟨elapsedSpec e, calculateCoverage_singleton hw, h0, h1, h2⟩
  · intro hlen
    match es, h, hlen with
    | [], _, _ => decide
    | [e], h, _ =>
      obtain ⟨hw, _, h1, _⟩ := elapsedSpec_bounds (h e (List.mem_singleton_self e))
      rw [isComplete, calculateCoverage_singleton hw]
      simp only [JsNumber.strictEq, decide_eq_false_iff_not]
      omega
    | _ :: _ :: _, _, hlen => exact absurd hlen (by simp)
  · intro formData hnil
    simp only [addEntry, hnil, List.nil_append]
    decide

theorem entry_contribution_bounds_witness :
    (∀ e ∈ [(⟨"driving", "00:00", "23:59"⟩ : Entry)], e.validTimes = true) ∧
      isComplete [⟨"driving", "00:00", "23:59"⟩] = false :=
  ⟨by decide,
    (entry_contribution_bounds [⟨"driving", "00:00", "23:59"⟩] (by decide)).2.1 (by decide)⟩

/-! ## Reading numbers: lemmas -/

theorem dyadic_ne_nan (negative : Bool) (q k : Nat) : dyadic negative q k ≠ .nan := by
  induction k generalizing q with
  | zero => simp [dyadic]
  | succ k ih =>
    simp only [dyadic]
    split
    · exact ih _
    · simp

theorem roundDyadic_ne_nan (negative : Bool) (m k : Nat) : roundDyadic negative m k ≠ .nan := by
  simp only [roundDyadic]
  split
  · simp
  · split
    · simp
    · exact dyadic_ne_nan _ _ _

theorem toDouble_ne_nan (negative : Bool) (n d : Nat) : toDouble negative n d ≠ .nan := by
  simp only [toDouble]
  split
  · simp
  · exact roundDyadic_ne_nan _ _ _

theorem decimalValue_ne_nan (negative : Bool) (digits : Nat) (exponent : Int) :
    decimalValue negative digits exponent ≠ .nan := by
  cases exponent <;> simp only [decimalValue] <;> exact toDouble_ne_nan _ _ _

/-- A string with a digit in its whole part or in its fraction starts with a
decimal literal, whose value is a number. -/
theorem scanDecimal_of_digit (s : List Char)
    (h : ¬ (((takeSign s).2.takeWhile Char.isDigit).isEmpty = true ∧
      (fractionDigits ((takeSign s).2.dropWhile Char.isDigit)).isEmpty = true)) :
    ∃ v r, scanDecimal s = some (v, r) ∧ v ≠ .nan := by
  simp only [scanDecimal]
  split
  · exact ⟨_, _, rfl, by simp⟩
  · have hne : (((takeSign s).2.takeWhile Char.isDigit).isEmpty &&
        (fractionDigits ((takeSign s).2.dropWhile Char.isDigit)).isEmpty) = false := by
      rw [Bool.and_eq_false_iff]
      by_cases h1 : ((takeSign s).2.takeWhile Char.isDigit).isEmpty = true
      · right
        by_cases h2 : (fractionDigits ((takeSign s).2.dropWhile Char.isDigit)).isEmpty = true
        · exact absurd ⟨h1, h2⟩ h
        · simpa using h2
      · left
        simpa using h1
    rw [hne]
    simp only [Bool.false_eq_true, if_false]
    split
    · exact ⟨_, _, rfl, decimalValue_ne_nan _ _ _⟩
    · exact ⟨_, _, rfl, decimalValue_ne_nan _ _ _⟩

/-- White space is neither a digit nor a point, a minus or a plus sign. -/
theorem not_isStrWhiteSpace {c : Char} (h : c.isDigit = true ∨ c = '.' ∨ c = '-') :
    isStrWhiteSpace c = false := by
  rcases h with h | rfl | rfl
  · rcases isDigit_cases h with rfl | rfl | rfl | rfl | rfl | rfl | rfl | rfl | rfl | rfl <;>
      decide
  · decide
  · decide

/-- In a valid floating-point number the mantissa has a digit. -/
theorem mantissa_of_valid {t : String} (h : isValidFloatingPointNumber t = true) :
    ¬ (((stripMinus t.data).takeWhile Char.isDigit).isEmpty = true ∧
      (fractionDigits ((stripMinus t.data).dropWhile Char.isDigit)).isEmpty = true) := by
  simp only [isValidFloatingPointNumber, Bool.and_eq_true] at h
  obtain ⟨hm, _⟩ := h
  intro ⟨h1, h2⟩
  split at hm
  · simp [h2] at hm
  · simp [h1] at hm


/-- A valid floating-point number starts with a digit, a point or a minus sign. -/
theorem head_of_valid {t : String} {c : Char} {r : List Char} (hd : t.data = c :: r)
    (h : isValidFloatingPointNumber t = true) :
    c.isDigit = true ∨ c = '.' ∨ c = '-' := by
  by_cases hm : c = '-'
  · exact Or.inr (Or.inr hm)
  by_cases hdig : c.isDigit = true
  · exact Or.inl hdig
  by_cases hp : c = '.'
  · exact Or.inr (Or.inl hp)
  exfalso
  have hs : stripMinus t.data = c :: r := by
    rw [hd]
    unfold stripMinus
    split
    · rename_i heq
      exact absurd (List.cons.inj heq).1 hm
    · rfl
  apply mantissa_of_valid h
  rw [hs]
  have hw : (c :: r).takeWhile Char.isDigit = [] := by simp [List.takeWhile, hdig]
  have hr : (c :: r).dropWhile Char.isDigit = c :: r := by simp [List.dropWhile, hdig]
  refine ⟨by rw [hw]; rfl, ?_⟩
  rw [hr]
  unfold fractionDigits
  split
  · rename_i heq
    exact absurd (List.cons.inj heq).1 hp
  · rfl

/-- A text that is a valid floating-point number parses as a number. -/
theorem parseFloat_of_valid {t : String} (h : isValidFloatingPointNumber t = true) :
    parseFloat t ≠ .nan := by
  have hm := mantissa_of_valid h
  cases hd : t.data with
  | nil =>
    rw [hd] at hm
    exact absurd ⟨rfl, rfl⟩ hm
  | cons c r =>
    have hc := head_of_valid hd h
    have hws : (c :: r).dropWhile isStrWhiteSpace = c :: r := by
      simp [List.dropWhile, not_isStrWhiteSpace hc]
    have hsign : (takeSign (c :: r)).2 = stripMinus (c :: r) := by
      rcases hc with hdig | rfl | rfl
      · rcases isDigit_cases hdig with rfl | rfl | rfl | rfl | rfl | rfl | rfl | rfl | rfl | rfl <;>
          rfl
      · rfl
      · rfl
    rw [hd, ← hsign] at hm
    obtain ⟨v, rest, hv, hne⟩ := scanDecimal_of_digit (c :: r) hm
    simp only [parseFloat, hd, hws, hv]
    exact hne

/-! ## Saving a log: the claims -/

/-- The state `handleSubmit` leaves, given what its one `api` call yields. -/
theorem handleSubmit_eq (srv : Server Body) (s : LogForm) (st : Client) :
    handleSubmit srv s st =
      match api srv st (saveRequest s) with
      | (st1, .ok response) =>
        if s.isEdit then
          ({ s with error := .str "", success := "Log updated successfully!", loading := false },
            st1)
        else
          ({ s with error := .str "", success := "Log created successfully!",
                    navigated := (createdLogRoute response.data).orElse (fun _ => s.navigated),
                    loading := false }, st1)
      | (st1, .error err) =>
        if err.status = some 401 then
          ({ s with error := .str "", success := "", navigated := some "/login",
                    loading := false },
            { st1 with localStorage := clearAuthTokens st1.localStorage })
        else
          ({ s with error := saveErrorMessage err, success := "", loading := false }, st1) := by
  simp only [handleSubmit, saveRequest, logsAPI.update, logsAPI.create]
  cases hedit : s.isEdit
  · simp only [Bool.false_eq_true, if_false]
    generalize api srv st (request "post" "/logs/" (toSubmitData s.formData).stringify) = x
    obtain ⟨x1, x2⟩ := x
    cases x2 <;> rfl
  · simp only [if_true]
    generalize api srv st
      (request "put" ("/logs/" ++ toStr s.id ++ "/") (toSubmitData s.formData).stringify) = x
    obtain ⟨x1, x2⟩ := x
    cases x2 <;> rfl

/-- C12, as the code has it: when `total_miles` does not parse as a number, the number
control of the form has the empty value and, being `required`, fails the browser's
validation: a submission of the form does not run `handleSubmit`, so that no create or
update request is sent and the form, its error message included, stays as it was. -/
theorem submitForm_blocks_unparsed_miles (srv : Server Body) (othersValid : Bool)
    (s : LogForm) (st : Client) (h : parseFloat s.formData.total_miles = .nan) :
    totalMilesControl s.formData.total_miles = "" ∧
      formValid s othersValid = false ∧
      submitForm srv othersValid s st = (s, st) := by
  have hv : isValidFloatingPointNumber s.formData.total_miles = false := by
    cases hval : isValidFloatingPointNumber s.formData.total_miles with
    | false => rfl
    | true => exact absurd h (parseFloat_of_valid hval)
  have hc : totalMilesControl s.formData.total_miles = "" := by
    simp [totalMilesControl, hv]
  have hf : formValid s othersValid = false := by
    simp [formValid, hc]
  exact ⟨hc, hf, by simp [submitForm, hf]⟩

theorem submitForm_blocks_unparsed_miles_witness :
    parseFloat (newLogForm "twelve").formData.total_miles = .nan ∧
      totalMilesControl (newLogForm "twelve").formData.total_miles = "" ∧
      formValid (newLogForm "twelve") true = false ∧
      submitForm srvAccept true (newLogForm "twelve") accessOnly
        = (newLogForm "twelve", accessOnly) :=
  ⟨by decide,
    submitForm_blocks_unparsed_miles srvAccept true (newLogForm "twelve") accessOnly
      (by decide)⟩

/-- C12 as stated fails: `handleSubmit` has no validation of its own.  Run on a form
whose `total_miles` holds the text `twelve`, it builds the payload with `NaN`, written
`null`, sends the create request and reports success, not a validation error; and a
submission of the rendered form, which the browser stops, sets no error either. -/
theorem handleSubmit_unparsed_miles_no_validation_error :
    parseFloat (newLogForm "twelve").formData.total_miles = .nan ∧
      (handleSubmit srvAccept (newLogForm "twelve") accessOnly).2.trace
        = [Event.send ⟨"post", "/logs/",
            (toSubmitData (newLogForm "twelve").formData).stringify,
            some "Bearer stale", false⟩] ∧
      (handleSubmit srvAccept (newLogForm "twelve") accessOnly).1.success
        = "Log created successfully!" ∧
      (handleSubmit srvAccept (newLogForm "twelve") accessOnly).1.error = .str "" ∧
      (toSubmitData (newLogForm "twelve").formData).stringify =
        "\x7b\"date\":\"2024-05-02\",\"start_location\":\"\",\"end_location\":\"\"," ++
        "\"carrier_name\":\"\",\"vehicle_id\":\"\",\"total_miles\":null," ++
        "\"remarks\":\"\",\"duty_status_entries\":[]\x7d" ∧
      (submitForm srvAccept true (newLogForm "twelve") accessOnly).1.error = .str "" := by
  have h := api_of_other srvAccept accessOnly (saveRequest (newLogForm "twelve"))
    (by intro r hr; cases hr; decide)
  rw [handleSubmit_eq, h]
  refine ⟨by decide, ?_, ?_, ?_, by decide, by decide⟩ <;> rfl

/-- What `handleSubmit` shows after a failure that is not a 401. -/
theorem handleSubmit_error_of_failure (srv : Server Body) (s : LogForm) (st st1 : Client)
    (err : Failure Body) (hsent : api srv st (saveRequest s) = (st1, .error err))
    (h401 : err.status ≠ some 401) :
    (handleSubmit srv s st).1.error = saveErrorMessage err := by
  rw [handleSubmit_eq, hsent]
  simp only [h401, if_false]

/-- C13, as the code has it: after a create or update failure other than a 401, the
message shown is the body itself when it is a non-empty string; for an object, the
member `duty_status_entries` comes first whatever its position (its first message when
it is a list, itself when it is a non-empty string); without it, the first message of
the first member when that is a list starting with a non-empty message.  All verbatim. -/
theorem handleSubmit_surfaces_field_error (srv : Server Body) (s : LogForm) (st st1 : Client)
    (err : Failure Body) (r : Response Body)
    (hsent : api srv st (saveRequest s) = (st1, .error err))
    (hresp : err.response? = some r) (h401 : r.status ≠ 401) :
    (∀ m, r.data = .text m → m ≠ "" → (handleSubmit srv s st).1.error = .str m) ∧
      (∀ fields m rest, r.data = .object fields →
        fields.lookup "duty_status_entries" = some (.arr (m :: rest)) →
        (handleSubmit srv s st).1.error = .str m) ∧
      (∀ fields m, r.data = .object fields →
        fields.lookup "duty_status_entries" = some (.str m) → m ≠ "" →
        (handleSubmit srv s st).1.error = .str m) ∧
      (∀ key m rest others, r.data = .object ((key, .arr (m :: rest)) :: others) →
        (((key, Value.arr (m :: rest)) :: others).lookup "duty_status_entries").all
          (fun v => !v.truthy) = true →
        m ≠ "" →
        (handleSubmit srv s st).1.error = .str m) := by
  have hst : err.status ≠ some 401 := by
    simp only [Failure.status, hresp, Option.map_some', ne_eq, Option.some.injEq]
    exact h401
  rw [handleSubmit_error_of_failure srv s st st1 err hsent hst]
  refine ⟨?_, ?_, ?_, ?_⟩
  · intro m hd hm
    simp [saveErrorMessage, hresp, hd, hm]
  · intro fields m rest hd hl
    simp [saveErrorMessage, hresp, hd, hl, Value.truthy, Value.first]
  · intro fields m hd hl hm
    simp [saveErrorMessage, hresp, hd, hl, Value.truthy, hm]
  · intro key m rest others hd hl hm
    cases hk : ((key, Value.arr (m :: rest)) :: others).lookup "duty_status_entries" with
    | none =>
      simp [saveErrorMessage, hresp, hd, hk, Value.truthy, Value.first, hm]
    | some v =>
      rw [hk] at hl
      simp only [Option.all_some, Bool.not_eq_true'] at hl
      simp only [saveErrorMessage, hresp, Option.map_some', hd, hk, Option.getD_some, hl,
        Bool.false_eq_true, if_false]
      simp [Value.truthy, Value.first, hm]

/-- A create request turned down by `srvInvalid`: the failure `handleSubmit` catches. -/
theorem api_srvInvalid (body : Body) (total_miles : String) :
    api (srvInvalid body) accessOnly (saveRequest (newLogForm total_miles)) =
      ({ accessOnly with
          trace := [Event.send (requestInterceptor accessOnly.localStorage
            (saveRequest (newLogForm total_miles)))] },
        .error (.response
          (requestInterceptor accessOnly.localStorage (saveRequest (newLogForm total_miles)))
          ⟨400, body⟩)) := by
  rw [api_of_other (srvInvalid body) accessOnly (saveRequest (newLogForm total_miles))
    (by
      intro r hr
      cases hr
      show (400 : Nat) ≠ 401
      decide)]
  rfl

theorem handleSubmit_surfaces_field_error_witness :
    (handleSubmit
        (srvInvalid (.object [("date", .arr ["Enter a valid date."]),
          ("total_miles", .arr ["A valid number is required.", "Too large."])]))
        (newLogForm "12.5") accessOnly).1.error = .str "Enter a valid date." :=
  (handleSubmit_surfaces_field_error
    (srvInvalid (.object [("date", .arr ["Enter a valid date."]),
      ("total_miles", .arr ["A valid number is required.", "Too large."])]))
    (newLogForm "12.5") accessOnly _ _ ⟨400, _⟩ (api_srvInvalid _ "12.5") rfl
    (by decide)).2.2.2 "date" "Enter a valid date." []
      [("total_miles", .arr ["A valid number is required.", "Too large."])] rfl (by decide)
      (by decide)

/-- C13 as stated fails: when the body names `date` first and `duty_status_entries`
second, the message shown is that of `duty_status_entries`; when the first member
holds a plain message, only its first character is shown; and after a 401 no message
of the body is shown at all: the tokens are removed and the form leaves for `/login`. -/
theorem handleSubmit_error_not_first_field :
    (handleSubmit
        (srvInvalid (.object [("date", .arr ["Enter a valid date."]),
          ("duty_status_entries", .arr ["Entries overlap."])]))
        (newLogForm "12.5") accessOnly).1.error = .str "Entries overlap." ∧
      (handleSubmit (srvInvalid (.object [("detail", .str "Not found.")]))
        (newLogForm "12.5") accessOnly).1.error = .str "N" ∧
      (handleSubmit (srvUnauthorized (.object [("date", .arr ["Enter a valid date."])]))
        (newLogForm "12.5") accessOnly).1.error = .str "" ∧
      (handleSubmit (srvUnauthorized (.object [("date", .arr ["Enter a valid date."])]))
        (newLogForm "12.5") accessOnly).1.navigated = some "/login" := by
  have h401 := api_of_no_refresh_token
    (srvUnauthorized (.object [("date", .arr ["Enter a valid date."])])) accessOnly
    (saveRequest (newLogForm "12.5")) ⟨401, _⟩ rfl rfl rfl (by decide)
  refine ⟨?_, ?_, ?_, ?_⟩
  · rw [handleSubmit_error_of_failure _ _ _ _ _ (api_srvInvalid _ "12.5") (by decide)]
    decide
  · rw [handleSubmit_error_of_failure _ _ _ _ _ (api_srvInvalid _ "12.5") (by decide)]
    decide
  · rw [handleSubmit_eq, h401]
    rfl
  · rw [handleSubmit_eq, h401]
    rfl

end TransportFrontend
